import Mathlib

/-!
# The nebula virtual-device bridge (`inbound/tun_nebula.go`)

A shallow embedding of the bridge between the overlay engine's device
interface (`nebulaDevice`) and the consumer framework's tunnel interface
(`NebulaTun`), together with the library objects the bridge is built from:
Go's `io.Pipe`, `net.IPNet.String`, `netip.ParsePrefix` and the engine's
`cidr.Tree4`.

Conventions.
* A Go `error` is an `Option Error`; `none` is `nil`.
* A Go pointer that may be `nil` is an `Option`.
* A Go string or byte slice is a list of byte values (`List Nat`).
* A Go object reached through an embedded pointer (`*io.PipeReader`,
  `*io.PipeWriter`) is the table of its methods, each a transformer of the
  `World`; a `Read` that would block has no result (`none`).
* The library code is modelled on the library sources the bridge is compiled
  against; error texts of the library are shortened.
* `World.calls` is a ghost trace of the calls made on the lifecycle handle and
  on the conduit halves; it exists only to state ordering properties.
-/

namespace Inbound

/-! ## Errors -/

/-- Go error values the bridge can observe. Go compares errors by identity, so
the sentinels are distinct constructors; `cause err msg` is `E.Cause(err, msg)`. -/
inductive Error where
  | EOF
  | ErrClosedPipe
  | ErrClosed
  | other (msg : String)
  | cause (err : Error) (msg : String)
  deriving DecidableEq, Repr

/-- The wrapper `E.Cause(err, message)` of `sing/common/exceptions`. -/
def E.Cause (err : Error) (message : String) : Error := Error.cause err message

/-! ## `io.Pipe` (Go standard library, `io/pipe.go`) -/

/-- The struct `io.pipe`. `wrCh` holds the slices of the `Write` calls that have
entered `pipe.write` and not yet returned, in the order they take `wrMu`: the
head is the slice being sent on the channel `wrCh`, the tail are writers still
waiting. `done` is whether the channel `done` is closed; `rerr` and `werr` are
the two `onceError` cells. -/
structure pipe where
  wrCh : List (List Nat)
  done : Bool
  rerr : Option Error
  werr : Option Error
  deriving DecidableEq, Repr

/-- The pipe made by `io.Pipe()`. -/
def pipe.new : pipe := { wrCh := [], done := false, rerr := none, werr := none }

/-- The method `onceError.Store`: only the first non-nil error is kept. -/
def onceError.Store (a : Option Error) (err : Option Error) : Option Error :=
  match a with
  | some e => some e
  | none => err

/-- The method `pipe.readCloseError`. -/
def pipe.readCloseError (p : pipe) : Error :=
  match p.rerr, p.werr with
  | none, some werr => werr
  | _, _ => Error.ErrClosedPipe

/-- The method `pipe.writeCloseError`. -/
def pipe.writeCloseError (p : pipe) : Error :=
  match p.werr, p.rerr with
  | none, some rerr => rerr
  | _, _ => Error.ErrClosedPipe

/-- What a Go `Read(p)` hands back: the count `n`, the bytes now in `p[:n]`, and the error. -/
structure ReadResult where
  n : Nat
  data : List Nat
  err : Option Error
  deriving DecidableEq, Repr

/-- The method `pipe.read` with a buffer of length `k`. A closed pipe answers at
once with the close error. Otherwise the reader receives the slice at the head
of `wrCh`, copies `min k (len bw)` bytes and reports the count on `rdCh`; the
writer drops those bytes and offers the rest again while any are left.
With no writer in the send the call blocks (`none`). -/
def pipe.read (p : pipe) (k : Nat) : Option (ReadResult × pipe) :=
  if p.done then some (⟨0, [], some p.readCloseError⟩, p)
  else
    match p.wrCh with
    | [] => none
    | bw :: waiting =>
      let nr := min k bw.length
      let b := bw.drop nr
      some (⟨nr, bw.take nr, none⟩,
        { p with wrCh := if b.length > 0 then b :: waiting else waiting })

/-- The method `pipe.write`, up to the point where the caller is parked in the
channel send: on a closed pipe it returns `(0, writeCloseError)` at once
(`some`); otherwise the slice joins `wrCh` and the call returns only after
readers have taken it (`none` here). -/
def pipe.write (p : pipe) (b : List Nat) : Option (Nat × Option Error) × pipe :=
  if p.done then (some (0, some p.writeCloseError), p)
  else (none, { p with wrCh := p.wrCh ++ [b] })

/-- The method `pipe.closeRead`: a nil argument becomes `ErrClosedPipe`, the
error is stored once, `done` is closed, parked writers give up. Returns nil. -/
def pipe.closeRead (p : pipe) (err : Option Error) : Option Error × pipe :=
  let err := match err with
    | none => Error.ErrClosedPipe
    | some e => e
  (none, { p with rerr := onceError.Store p.rerr (some err), done := true, wrCh := [] })

/-- The method `pipe.closeWrite`: a nil argument becomes `EOF`. Returns nil. -/
def pipe.closeWrite (p : pipe) (err : Option Error) : Option Error × pipe :=
  let err := match err with
    | none => Error.EOF
    | some e => e
  (none, { p with werr := onceError.Store p.werr (some err), done := true, wrCh := [] })

/-! ## The world: the pipes that exist, and the ghost trace -/

/-- Calls recorded in the ghost trace. -/
inductive Call where
  | Start
  | Stop
  | ReaderClose (pipeId : Nat)
  | WriterClose (pipeId : Nat)
  deriving DecidableEq, Repr

/-- The heap of pipes (`pipes i` is the pipe with identity `i`, `next` the first
unused identity) and the ghost trace. -/
structure World where
  pipes : Nat → pipe
  next : Nat
  calls : List Call

/-- The world with no pipe allocated and an empty trace. -/
def World.empty : World := { pipes := fun _ => pipe.new, next := 0, calls := [] }

/-- The method table of an `*io.PipeReader`. -/
structure PipeReader where
  Read : Nat → World → Option (ReadResult × World)
  Close : World → Option Error × World

/-- The method table of an `*io.PipeWriter`. -/
structure PipeWriter where
  Write : List Nat → World → Option (Nat × Option Error) × World
  Close : World → Option Error × World

/-- The read half of pipe `i`: `Read` is `pipe.read`, `Close` is
`CloseWithError(nil)`, that is `pipe.closeRead(nil)`. -/
def PipeReader.ofPipe (i : Nat) : PipeReader where
  Read k w :=
    match (w.pipes i).read k with
    | none => none
    | some (r, p) => some (r, { w with pipes := Function.update w.pipes i p })
  Close w :=
    let (err, p) := (w.pipes i).closeRead none
    (err, { w with pipes := Function.update w.pipes i p,
                   calls := w.calls ++ [Call.ReaderClose i] })

/-- The write half of pipe `i`: `Write` is `pipe.write`, `Close` is
`CloseWithError(nil)`, that is `pipe.closeWrite(nil)`. -/
def PipeWriter.ofPipe (i : Nat) : PipeWriter where
  Write b w :=
    let (r, p) := (w.pipes i).write b
    (r, { w with pipes := Function.update w.pipes i p })
  Close w :=
    let (err, p) := (w.pipes i).closeWrite none
    (err, { w with pipes := Function.update w.pipes i p,
                   calls := w.calls ++ [Call.WriterClose i] })

/-- The function `io.Pipe()`: allocates one pipe and returns its two halves. -/
def ioPipe (w : World) : (PipeReader × PipeWriter) × World :=
  let i := w.next
  ((PipeReader.ofPipe i, PipeWriter.ofPipe i),
    { w with pipes := Function.update w.pipes i pipe.new, next := i + 1 })

/-- A reader whose `Close` answers `e`: what a conduit half other than
`io.Pipe` (whose `Close` is always nil) may do. Its `Read` answers `r`. -/
def PipeReader.answering (tag : Nat) (r : ReadResult) (e : Option Error) : PipeReader where
  Read _ w := some (r, w)
  Close w := (e, { w with calls := w.calls ++ [Call.ReaderClose tag] })

/-- A writer whose `Close` answers `e`; its `Write` takes the whole slice. -/
def PipeWriter.answering (tag : Nat) (e : Option Error) : PipeWriter where
  Write b w := (some (b.length, none), w)
  Close w := (e, { w with calls := w.calls ++ [Call.WriterClose tag] })

/-! ## The router `cidr.Tree4` (engine library, `cidr/tree4.go`) -/

/-- A `*Node[T]` of the engine's binary prefix tree; `nil` is the nil pointer.
The `parent` pointer plays no part in lookups and is left out. -/
inductive Node (T : Type) where
  | nil
  | node (left right : Node T) (hasValue : Bool) (value : T)
  deriving Repr

/-- The struct `Tree4[T]`. -/
structure Tree4 (T : Type) where
  root : Node T

/-- An address `iputil.VpnIp`: a `uint32`. -/
abbrev VpnIp := Nat

/-- The constant `startbit = 0x80000000`. -/
def startbit : Nat := 0x80000000

/-- The constructor `NewTree4`: a root node with no children and no value. -/
def NewTree4 {T : Type} [Inhabited T] : Tree4 T :=
  { root := Node.node Node.nil Node.nil false default }

/-- The loop of `Tree4.MostSpecificContains`: walks from `node` down the bits of
`ip` while the node is not nil, keeping the last value passed. -/
def Node.walk {T : Type} : Node T → (ip bit : Nat) → Bool × T → Bool × T
  | Node.nil, _, _, acc => acc
  | Node.node left right hasValue value, ip, bit, acc =>
    let acc := if hasValue then (true, value) else acc
    if ip &&& bit ≠ 0 then right.walk ip ((bit >>> 1) % 2 ^ 32) acc
    else left.walk ip ((bit >>> 1) % 2 ^ 32) acc

/-- The method `Tree4.MostSpecificContains`; `value` starts as the zero value of `T`. -/
def Tree4.MostSpecificContains {T : Type} [Inhabited T] (tree : Tree4 T) (ip : VpnIp) : Bool × T :=
  tree.root.walk ip startbit (false, default)

/-! ## `net.IPNet.String` and `netip.ParsePrefix` (Go standard library) -/

/-- A 4-byte slice: the IPv4 form of `net.IP` and of `net.IPMask`. -/
structure Bytes4 where
  b0 : Nat
  b1 : Nat
  b2 : Nat
  b3 : Nat
  deriving DecidableEq, Repr

/-- The struct `net.IPNet` in its IPv4 form (the engine's overlay addresses are
32-bit): a 4-byte `IP` and a 4-byte `Mask`. -/
structure IPNet where
  IP : Bytes4
  Mask : Bytes4
  deriving DecidableEq, Repr

/-- The helper `ubtoa`: the decimal digits of a byte. -/
def ubtoa (v : Nat) : List Nat :=
  if v < 10 then [v + 48]
  else if v < 100 then [v / 10 + 48, v % 10 + 48]
  else [v / 100 + 48, (v / 10) % 10 + 48, v % 10 + 48]

/-- The method `net.IP.String` on a 4-byte address: dotted decimal. -/
def IP.String (ip : Bytes4) : List Nat :=
  ubtoa ip.b0 ++ [46] ++ ubtoa ip.b1 ++ [46] ++ ubtoa ip.b2 ++ [46] ++ ubtoa ip.b3

/-- The loop of `uitoa`: digits are written from the end of a 20-byte buffer. -/
def uitoa.loop : Nat → Nat → List Nat → List Nat
  | 0, _, buf => buf
  | fuel + 1, val, buf =>
    if val ≥ 10 then uitoa.loop fuel (val / 10) ((48 + (val - val / 10 * 10)) :: buf)
    else (48 + val) :: buf

/-- The helper `uitoa`: an unsigned integer in decimal. -/
def uitoa (val : Nat) : List Nat :=
  if val = 0 then [48] else uitoa.loop 20 val []

/-- One hexadecimal digit, lower case. -/
def hexDigit (v : Nat) : Nat := if v < 10 then 48 + v else 87 + v

/-- The method `net.IPMask.String`: the mask in hexadecimal, no punctuation. -/
def IPMask.String (m : Bytes4) : List Nat :=
  [hexDigit (m.b0 / 16), hexDigit (m.b0 % 16), hexDigit (m.b1 / 16), hexDigit (m.b1 % 16),
   hexDigit (m.b2 / 16), hexDigit (m.b2 % 16), hexDigit (m.b3 / 16), hexDigit (m.b3 % 16)]

/-- The inner loop of `simpleMaskLength`: `for v&0x80 != 0 { n++; v <<= 1 }` on a byte. -/
def simpleMaskLength.ones : Nat → Nat → Nat → Nat × Nat
  | 0, n, v => (n, v)
  | fuel + 1, n, v =>
    if v &&& 0x80 ≠ 0 then simpleMaskLength.ones fuel (n + 1) ((v <<< 1) % 256) else (n, v)

/-- The outer loop of `simpleMaskLength` over the mask bytes. -/
def simpleMaskLength.loop : List Nat → Nat → Int
  | [], n => n
  | v :: rest, n =>
    if v = 0xff then simpleMaskLength.loop rest (n + 8)
    else
      let (n, v) := simpleMaskLength.ones 8 n v
      if v ≠ 0 then -1
      else if rest.all (fun b => b == 0) then n else -1

/-- The helper `simpleMaskLength`: the number of leading ones of a mask of the
form 1...10...0, and -1 for any other mask. -/
def simpleMaskLength (mask : Bytes4) : Int :=
  simpleMaskLength.loop [mask.b0, mask.b1, mask.b2, mask.b3] 0

/-- The method `net.IPNet.String`: `ip/len` for a canonical mask, `ip/hexmask` otherwise. -/
def IPNet.String (n : IPNet) : List Nat :=
  let l := simpleMaskLength n.Mask
  if l = -1 then IP.String n.IP ++ [47] ++ IPMask.String n.Mask
  else IP.String n.IP ++ [47] ++ uitoa l.toNat

/-- The type `netip.Addr`: the zero value, an IPv4 address, or an IPv6 address
(two 64-bit halves and a zone, empty for none). -/
inductive Addr where
  | zero
  | v4 (a b c d : Nat)
  | v6 (hi lo : Nat) (zone : List Nat)
  deriving DecidableEq, Repr

/-- The method `Addr.Is6`. -/
def Addr.Is6 : Addr → Bool
  | Addr.v6 _ _ _ => true
  | _ => false

/-- The method `Addr.BitLen`. -/
def Addr.BitLen : Addr → Nat
  | Addr.zero => 0
  | Addr.v4 _ _ _ _ => 32
  | Addr.v6 _ _ _ => 128

/-- The method `Addr.withoutZone`. -/
def Addr.withoutZone : Addr → Addr
  | Addr.v6 hi lo _ => Addr.v6 hi lo []
  | a => a

/-- The struct `netip.Prefix`; its zero value has the zero address and `bitsPlusOne = 0`. -/
structure Prefix where
  ip : Addr
  bitsPlusOne : Nat
  deriving DecidableEq, Repr

/-- The zero value `netip.Prefix{}`. -/
def Prefix.zero : Prefix := { ip := Addr.zero, bitsPlusOne := 0 }

/-- The method `Prefix.Bits`: -1 for an invalid prefix. -/
def Prefix.Bits (p : Prefix) : Int := (p.bitsPlusOne : Int) - 1

/-- The function `netip.PrefixFrom`. -/
def PrefixFrom (ip : Addr) (bits : Int) : Prefix :=
  { ip := ip.withoutZone,
    bitsPlusOne := if ip ≠ Addr.zero ∧ 0 ≤ bits ∧ bits ≤ ip.BitLen then bits.toNat + 1 else 0 }

/-- The state of the loop of `netip.parseIPv4`; `fields` is the array `[4]uint8`. -/
structure parseIPv4.State where
  fields : List Nat
  val : Nat
  pos : Nat
  digLen : Nat
  deriving DecidableEq, Repr

/-- The loop of `netip.parseIPv4` over the bytes still to be read; `prev` is the
byte before the current one (`none` at index 0). -/
def parseIPv4.loop : List Nat → Option Nat → parseIPv4.State → Except Error parseIPv4.State
  | [], _, st => Except.ok st
  | c :: rest, prev, st =>
    if 48 ≤ c ∧ c ≤ 57 then
      if st.digLen = 1 ∧ st.val = 0 then
        Except.error (Error.other "IPv4 field has octet with leading zero")
      else
        let val := st.val * 10 + c - 48
        if val > 255 then Except.error (Error.other "IPv4 field has value >255")
        else parseIPv4.loop rest (some c) { st with val := val, digLen := st.digLen + 1 }
    else if c = 46 then
      if prev = none ∨ rest = [] ∨ prev = some 46 then
        Except.error (Error.other "IPv4 field must have at least one digit")
      else if st.pos = 3 then Except.error (Error.other "IPv4 address too long")
      else
        parseIPv4.loop rest (some c)
          { fields := st.fields.set st.pos st.val, val := 0, pos := st.pos + 1, digLen := 0 }
    else Except.error (Error.other "unexpected character")

/-- The function `netip.parseIPv4`. -/
def parseIPv4 (s : List Nat) : Except Error Addr :=
  match parseIPv4.loop s none { fields := [0, 0, 0, 0], val := 0, pos := 0, digLen := 0 } with
  | Except.error e => Except.error e
  | Except.ok st =>
    if st.pos < 3 then Except.error (Error.other "IPv4 address too short")
    else
      let fields := st.fields.set 3 st.val
      Except.ok (Addr.v4 (fields.getD 0 0) (fields.getD 1 0) (fields.getD 2 0) (fields.getD 3 0))

/-- The scan of `netip.ParseAddr` for the first of `.`, `:` and `%`. The IPv6
parser is not part of this development and is taken as a parameter. -/
def ParseAddr.scan (parseIPv6 : List Nat → Except Error Addr) (s : List Nat) :
    List Nat → Except Error Addr
  | [] => Except.error (Error.other "unable to parse IP")
  | c :: rest =>
    if c = 46 then parseIPv4 s
    else if c = 58 then parseIPv6 s
    else if c = 37 then Except.error (Error.other "missing IPv6 address")
    else ParseAddr.scan parseIPv6 s rest

/-- The function `netip.ParseAddr`. -/
def ParseAddr (parseIPv6 : List Nat → Except Error Addr) (s : List Nat) : Except Error Addr :=
  ParseAddr.scan parseIPv6 s s

/-- The digit loop of `strconv.Atoi`. -/
def Atoi.digits : List Nat → Nat → Option Nat
  | [], n => some n
  | ch :: rest, n => if 48 ≤ ch ∧ ch ≤ 57 then Atoi.digits rest (n * 10 + (ch - 48)) else none

/-- The function `strconv.Atoi`: an optional sign, then decimal digits; empty
input, a byte that is no digit, or a value outside `int` is an error. -/
def Atoi (s : List Nat) : Except Error Int :=
  let (neg, body) := match s with
    | 45 :: t => (true, t)
    | 43 :: t => (false, t)
    | t => (false, t)
  if body = [] then Except.error (Error.other "strconv.Atoi: invalid syntax")
  else
    match Atoi.digits body 0 with
    | none => Except.error (Error.other "strconv.Atoi: invalid syntax")
    | some n =>
      let v : Int := if neg then -(n : Int) else n
      if v < -(2 ^ 63) ∨ v > 2 ^ 63 - 1 then
        Except.error (Error.other "strconv.Atoi: value out of range")
      else Except.ok v

/-- The function `LastIndexByteString(s, c)`: the largest index of `s` that holds
`c`, if any. -/
def LastIndexByteString : List Nat → Nat → Option Nat
  | [], _ => none
  | x :: rest, c =>
    match LastIndexByteString rest c with
    | some j => some (j + 1)
    | none => if x = c then some 0 else none

/-- The test `len(bitsStr) > 1 && (bitsStr[0] < '1' || bitsStr[0] > '9')` of `ParsePrefix`. -/
def ParsePrefix.badLead : List Nat → Bool
  | c :: _ :: _ => c < 49 || c > 57
  | _ => false

/-- The test `ip.Is6() && ip.z != z6noz`: an IPv6 address with a zone. -/
def Addr.hasZone : Addr → Bool
  | Addr.v6 _ _ zone => zone != []
  | _ => false

/-- The function `netip.ParsePrefix`: the address before the last slash, the
bit count after it, without sign or leading zero and within the address size. -/
def ParsePrefix (parseIPv6 : List Nat → Except Error Addr) (s : List Nat) : Except Error Prefix :=
  match LastIndexByteString s 47 with
  | none => Except.error (Error.other "no '/'")
  | some i =>
    match ParseAddr parseIPv6 (s.take i) with
    | Except.error e => Except.error e
    | Except.ok ip =>
      if ip.hasZone then
        Except.error (Error.other "IPv6 zones cannot be present in a prefix")
      else
        let bitsStr := s.drop (i + 1)
        if ParsePrefix.badLead bitsStr then
          Except.error (Error.other "bad bits after slash")
        else
          match Atoi bitsStr with
          | Except.error _ => Except.error (Error.other "bad bits after slash")
          | Except.ok bits =>
            let maxBits : Int := if ip.Is6 then 128 else 32
            if bits < 0 ∨ bits > maxBits then
              Except.error (Error.other "prefix length out of range")
            else Except.ok (PrefixFrom ip bits)

/-! ## The bridge (`inbound/tun_nebula.go`) -/

/-- The engine's lifecycle handle `*nebula.Control`. What `Start` and `Stop` do
inside the engine is external; all the bridge can see of it is an effect on
the pipes, kept abstract here. -/
structure Control where
  startEffect : (Nat → pipe) → (Nat → pipe)
  stopEffect : (Nat → pipe) → (Nat → pipe)

/-- The method `Control.Start`, recorded in the trace. -/
def Control.Start (c : Control) (w : World) : World :=
  { w with pipes := c.startEffect w.pipes, calls := w.calls ++ [Call.Start] }

/-- The method `Control.Stop`, recorded in the trace. -/
def Control.Stop (c : Control) (w : World) : World :=
  { w with pipes := c.stopEffect w.pipes, calls := w.calls ++ [Call.Stop] }

/-- The struct `nebulaDevice`. -/
structure nebulaDevice where
  cidr : IPNet
  routeTree : Tree4 VpnIp
  PipeReader : PipeReader
  PipeWriter : PipeWriter

/-- The struct `NebulaTun` (the logger plays no part and is left out). The
pointers are nil until the factory callback or `NewNebulaTun` sets them. -/
structure NebulaTun where
  ctl : Option Control
  prefix_ : Prefix
  PipeReader : Option PipeReader
  PipeWriter : Option PipeWriter

/-- The value `&NebulaTun{logger: logger}`: every other field zero. -/
def NebulaTun.zero : NebulaTun :=
  { ctl := none, prefix_ := Prefix.zero, PipeReader := none, PipeWriter := none }

/-- The external functions `NewNebulaTun` relies on and that are not modelled:
the configuration loader `(*config.C).LoadString` (only its error matters) and
the IPv6 branch of `netip.ParseAddr`. -/
structure Env where
  LoadString : String → Option Error
  parseIPv6 : List Nat → Except Error Addr

/-- The factory callback passed to `nebula.Main` by `NewNebulaTun`; the captured
`tun` is threaded through. -/
def NewNebulaTun.deviceFactory (env : Env) (tunCidr : IPNet) (tun : NebulaTun) (w : World) :
    Except Error nebulaDevice × NebulaTun × World :=
  match ParsePrefix env.parseIPv6 (IPNet.String tunCidr) with
  | Except.error err => (Except.error (E.Cause err "parse cidr"), tun, w)
  | Except.ok pfx =>
    let tun := { tun with prefix_ := pfx }
    let ((r1, w1), w) := ioPipe w
    let ((r2, w2), w) := ioPipe w
    let dev : nebulaDevice :=
      { cidr := tunCidr, routeTree := NewTree4, PipeReader := r2, PipeWriter := w1 }
    let tun := { tun with PipeReader := some r1, PipeWriter := some w2 }
    (Except.ok dev, tun, w)

/-- A behaviour of the engine's bootstrap `nebula.Main` as seen by its caller:
it returns a result, or calls the device factory with a CIDR and goes on
according to what the factory answered. -/
inductive Bootstrap where
  | ret (r : Except Error Control)
  | callFactory (tunCidr : IPNet) (k : Except Error nebulaDevice → Bootstrap)

/-- Runs a bootstrap against the factory callback of `NewNebulaTun`. -/
def Bootstrap.run (env : Env) : Bootstrap → NebulaTun → World → Except Error Control × NebulaTun × World
  | Bootstrap.ret r, tun, w => (r, tun, w)
  | Bootstrap.callFactory tunCidr k, tun, w =>
    let (r, tun, w) := NewNebulaTun.deviceFactory env tunCidr tun w
    (k r).run env tun w

/-- Modelled from the spec: the engine's bootstrap entry point (`nebula.Main`,
not part of these sources). Per the construction protocol it may fail before
the device exists (`pre`), calls the factory once with the negotiated CIDR,
fails with a wrapped error if the factory failed, may fail afterwards
(`post`), and otherwise returns the lifecycle handle. -/
def nebulaMain (pre : Option Error) (tunCidr : IPNet) (post : Option Error) (ctl : Control) :
    Bootstrap :=
  match pre with
  | some e => Bootstrap.ret (Except.error e)
  | none =>
    Bootstrap.callFactory tunCidr fun r =>
      match r with
      | Except.error e => Bootstrap.ret (Except.error (E.Cause e "Failed to get a tun/tap device"))
      | Except.ok _ =>
        match post with
        | some e => Bootstrap.ret (Except.error e)
        | none => Bootstrap.ret (Except.ok ctl)

/-- The constructor `NewNebulaTun`; `main` is the behaviour of `nebula.Main`. -/
def NewNebulaTun (env : Env) (main : Bootstrap) (config : String) (w : World) :
    Except Error NebulaTun × World :=
  match env.LoadString config with
  | some err => (Except.error (E.Cause err "Failed to load nebula config"), w)
  | none =>
    let tun := NebulaTun.zero
    let (r, tun, w) := main.run env tun w
    match r with
    | Except.error err => (Except.error (E.Cause err "Failed to setup nebula"), w)
    | Except.ok ctl =>
      let tun := { tun with ctl := some ctl }
      let w := ctl.Start w
      (Except.ok tun, w)

/-- The method `NebulaTun.Close`; `none` is the panic of a nil pointer dereference. -/
def NebulaTun.Close (nt : NebulaTun) (w : World) : Option (Option Error × World) :=
  match nt.ctl with
  | none => none
  | some ctl =>
    let w := ctl.Stop w
    match nt.PipeReader with
    | none => none
    | some r =>
      let (err, w) := r.Close w
      if err ≠ none then some (err, w)
      else
        match nt.PipeWriter with
        | none => none
        | some pw =>
          let (err, w) := pw.Close w
          if err ≠ none then some (err, w)
          else some (none, w)

/-- The method `NebulaTun.Prefix`. -/
def NebulaTun.Prefix (nt : NebulaTun) : Prefix := nt.prefix_

/-- The method `nebulaDevice.RouteFor`. -/
def nebulaDevice.RouteFor (t : nebulaDevice) (ip : VpnIp) : VpnIp :=
  (t.routeTree.MostSpecificContains ip).2

/-- The method `nebulaDevice.Activate`. -/
def nebulaDevice.Activate (_t : nebulaDevice) : Option Error := none

/-- The method `nebulaDevice.Cidr`. -/
def nebulaDevice.Cidr (t : nebulaDevice) : IPNet := t.cidr

/-- The method `nebulaDevice.Name`. -/
def nebulaDevice.Name (_t : nebulaDevice) : String := "sing-box"

/-- The method `nebulaDevice.NewMultiQueueReader`. -/
def nebulaDevice.NewMultiQueueReader (_t : nebulaDevice) : Except Error Unit :=
  Except.error (Error.other "TODO: multiqueue not implemented for android")

/-- The method `nebulaDevice.Close`. -/
def nebulaDevice.Close (t : nebulaDevice) (w : World) : Option Error × World :=
  let (err, w) := t.PipeReader.Close w
  if err ≠ none then (err, w)
  else
    let (err, w) := t.PipeWriter.Close w
    if err ≠ none then (err, w)
    else (none, w)

/-- The method `nebulaDevice.Read` with a buffer of length `k`; `none` when the
underlying read blocks. -/
def nebulaDevice.Read (t : nebulaDevice) (k : Nat) (w : World) : Option (ReadResult × World) :=
  match t.PipeReader.Read k w with
  | none => none
  | some (r, w) =>
    let err := if r.err = some Error.ErrClosedPipe then some Error.ErrClosed else r.err
    some ({ r with err := err }, w)

/-- The method `nebulaDevice.Write`, promoted from the embedded `*io.PipeWriter`. -/
def nebulaDevice.Write (t : nebulaDevice) (b : List Nat) (w : World) :
    Option (Nat × Option Error) × World :=
  t.PipeWriter.Write b w

/-- The method `NebulaTun.Read`, promoted from the embedded `*io.PipeReader`;
the outer `none` is the panic of a nil pointer dereference, the inner one a
call that blocks. -/
def NebulaTun.Read (nt : NebulaTun) (k : Nat) (w : World) :
    Option (Option (ReadResult × World)) :=
  match nt.PipeReader with
  | none => none
  | some r => some (r.Read k w)

/-- The method `NebulaTun.Write`, promoted from the embedded `*io.PipeWriter`;
the outer `none` is the panic of a nil pointer dereference. -/
def NebulaTun.Write (nt : NebulaTun) (b : List Nat) (w : World) :
    Option (Option (Nat × Option Error) × World) :=
  match nt.PipeWriter with
  | none => none
  | some pw => some (pw.Write b w)

/-! ## Schedules: the calls the two owners make on the wired bridge -/

/-- A call on the bridge by one of its two owners: the consumer framework uses
the `NebulaTun` (`tun…`), the overlay engine the `nebulaDevice` (`dev…`). -/
inductive Op where
  | tunRead (k : Nat)
  | tunWrite (b : List Nat)
  | tunReaderClose
  | tunWriterClose
  | devRead (k : Nat)
  | devWrite (b : List Nat)
  | devClose
  deriving DecidableEq, Repr

/-- Whether the call moves bytes (a read or a write) rather than closing something. -/
def Op.isTransfer : Op → Bool
  | Op.tunRead _ | Op.tunWrite _ | Op.devRead _ | Op.devWrite _ => true
  | _ => false

/-- The bytes the call hands to the consumer adapter's writer. -/
def Op.tunPayload : Op → List Nat
  | Op.tunWrite b => b
  | _ => []

/-- The bytes the call hands to the device adapter's writer. -/
def Op.devPayload : Op → List Nat
  | Op.devWrite b => b
  | _ => []

/-- The world together with the bytes each side has read so far. -/
structure Run where
  w : World
  tunGot : List Nat
  devGot : List Nat

/-- One call of a schedule. The calls of the two owners run in different
goroutines; a schedule lists them in the order in which they take effect on
the pipes. A `Read` that finds nothing to receive waits, so it takes effect
later, at a later position of the schedule: here it changes nothing. A `Write`
takes effect when its slice is offered; its return is not an event. -/
def Op.step (tun : NebulaTun) (dev : nebulaDevice) (s : Run) : Op → Run
  | Op.tunRead k =>
    match tun.Read k s.w with
    | some (some (r, w)) => { s with w := w, tunGot := s.tunGot ++ r.data }
    | _ => s
  | Op.tunWrite b =>
    match tun.Write b s.w with
    | some (_, w) => { s with w := w }
    | none => s
  | Op.tunReaderClose =>
    match tun.PipeReader with
    | some r => { s with w := (r.Close s.w).2 }
    | none => s
  | Op.tunWriterClose =>
    match tun.PipeWriter with
    | some pw => { s with w := (pw.Close s.w).2 }
    | none => s
  | Op.devRead k =>
    match dev.Read k s.w with
    | some (r, w) => { s with w := w, devGot := s.devGot ++ r.data }
    | none => s
  | Op.devWrite b => { s with w := (dev.Write b s.w).2 }
  | Op.devClose => { s with w := (dev.Close s.w).2 }

/-- A schedule run from a state. -/
def runOps (tun : NebulaTun) (dev : nebulaDevice) (s : Run) (ops : List Op) : Run :=
  ops.foldl (Op.step tun dev) s

/-- The bytes a pipe holds: offered by writers and not yet received. -/
def pipe.pending (p : pipe) : List Nat := p.wrCh.flatten

/-! ## Predicates on pipes and runs used to state the invariants -/

/-- The read half of a pipe has been closed: `done` is closed and `rerr` is set. -/
def pipe.readClosed (p : pipe) : Prop := p.done = true ∧ p.rerr ≠ none

/-- The transfer invariant of a wired bridge with pipes `a` (device to consumer)
and `a + 1` (consumer to device): both pipes are open; what each side has
read, followed by what is pending in the pipe it reads from, is what the
other side has written (`T` by the consumer, `D` by the device); and at most
`n` slices are on offer in each pipe. -/
def Run.conserves (s : Run) (a : Nat) (T D : List Nat) (n : Nat) : Prop :=
  (s.w.pipes a).done = false ∧ (s.w.pipes (a + 1)).done = false ∧
  s.devGot ++ (s.w.pipes (a + 1)).pending = T ∧
  s.tunGot ++ (s.w.pipes a).pending = D ∧
  (s.w.pipes (a + 1)).wrCh.length ≤ n ∧ (s.w.pipes a).wrCh.length ≤ n

/-- The size of a pipe: pending bytes plus offered slices. -/
def pipe.size (p : pipe) : Nat := p.pending.length + p.wrCh.length

/-! ## The engine's `Stop` (engine library, `control.go` and `interface.go`) -/

/-- What closing a device does to the pipes: the effect of `nebulaDevice.Close`. -/
def nebulaDevice.closeEffect (dev : nebulaDevice) (pipes : Nat → pipe) : Nat → pipe :=
  (nebulaDevice.Close dev { pipes := pipes, next := 0, calls := [] }).2.pipes

/-- The lifecycle handle the engine returns for the device `dev` it got from the
factory: `Control.Stop` closes the engine's interface, and closing the
interface calls `Close` on that device. -/
def engineControl (dev : nebulaDevice) : Control :=
  { startEffect := id, stopEffect := dev.closeEffect }

/-! ## Concrete inputs used by the examples -/

/-- A configuration text that is not empty. -/
def config0 : String := "pki:\n  ca: ca.crt\n  cert: host.crt\n  key: host.key\n"

/-- The device the factory builds for 10.42.0.0/24 in the empty world: it reads
from pipe 1 and writes to pipe 0. -/
def dev0 : nebulaDevice :=
  { cidr := { IP := ⟨10, 42, 0, 0⟩, Mask := ⟨255, 255, 255, 0⟩ }, routeTree := NewTree4,
    PipeReader := PipeReader.ofPipe 1, PipeWriter := PipeWriter.ofPipe 0 }

/-- An environment in which the configuration loads and no IPv6 text is accepted. -/
def env0 : Env :=
  { LoadString := fun _ => none, parseIPv6 := fun _ => Except.error (Error.other "IPv6") }

/-- A lifecycle handle whose `Start` and `Stop` leave the pipes alone. -/
def ctl0 : Control := { startEffect := id, stopEffect := id }

/-- The network 10.42.0.0/24. -/
def cidr0 : IPNet := { IP := ⟨10, 42, 0, 0⟩, Mask := ⟨255, 255, 255, 0⟩ }

/-- A device whose read half fails to close and whose write half closes cleanly. -/
def devFailingReadHalf : nebulaDevice :=
  { cidr := cidr0, routeTree := NewTree4,
    PipeReader := PipeReader.answering 1 ⟨0, [], none⟩ (some (Error.other "read half")),
    PipeWriter := PipeWriter.answering 2 none }

/-! ## Basic facts about the factory callback -/

/-- The device and the consumer adapter the factory wires when the CIDR parses: the
first pipe carries device writes to the consumer, the second consumer writes to the device. -/
theorem deviceFactory_ok (env : Env) (c : IPNet) (tun : NebulaTun) (w : World) (pfx : Prefix)
    (h : ParsePrefix env.parseIPv6 (IPNet.String c) = Except.ok pfx) :
    NewNebulaTun.deviceFactory env c tun w =
      (Except.ok { cidr := c, routeTree := NewTree4,
                   PipeReader := PipeReader.ofPipe (w.next + 1),
                   PipeWriter := PipeWriter.ofPipe w.next },
       { tun with prefix_ := pfx, PipeReader := some (PipeReader.ofPipe w.next),
                  PipeWriter := some (PipeWriter.ofPipe (w.next + 1)) },
       { pipes := Function.update (Function.update w.pipes w.next pipe.new) (w.next + 1) pipe.new,
         next := w.next + 2, calls := w.calls }) := by
  simp [NewNebulaTun.deviceFactory, h, ioPipe]

/-- The factory fails, touching nothing, when the CIDR does not parse. -/
theorem deviceFactory_error (env : Env) (c : IPNet) (tun : NebulaTun) (w : World) (e : Error)
    (h : ParsePrefix env.parseIPv6 (IPNet.String c) = Except.error e) :
    NewNebulaTun.deviceFactory env c tun w = (Except.error (E.Cause e "parse cidr"), tun, w) := by
  simp [NewNebulaTun.deviceFactory, h]

/-- The text of 10.42.0.0/24 parses to the prefix 10.42.0.0/24. -/
theorem parse_cidr0 :
    ParsePrefix env0.parseIPv6 (IPNet.String cidr0) = Except.ok ⟨Addr.v4 10 42 0 0, 25⟩ := by
  rfl

/-- The factory records nothing in the trace. -/
theorem deviceFactory_calls (env : Env) (c : IPNet) (tun : NebulaTun) (w : World) :
    (NewNebulaTun.deviceFactory env c tun w).2.2.calls = w.calls := by
  cases hp : ParsePrefix env.parseIPv6 (IPNet.String c) with
  | error e => rw [deviceFactory_error env c tun w e hp]
  | ok pfx => rw [deviceFactory_ok env c tun w pfx hp]

/-- Running a bootstrap that calls the factory: the factory runs, then the rest. -/
theorem Bootstrap.run_callFactory (env : Env) (c : IPNet)
    (k : Except Error nebulaDevice → Bootstrap) (tun : NebulaTun) (w : World) :
    (Bootstrap.callFactory c k).run env tun w =
      (k (NewNebulaTun.deviceFactory env c tun w).1).run env
        (NewNebulaTun.deviceFactory env c tun w).2.1
        (NewNebulaTun.deviceFactory env c tun w).2.2 := rfl

/-- No bootstrap behaviour records anything in the trace: the lifecycle handle
does not exist before the bootstrap has returned. -/
theorem Bootstrap.run_calls (env : Env) (main : Bootstrap) :
    ∀ (tun : NebulaTun) (w : World), (main.run env tun w).2.2.calls = w.calls := by
  induction main with
  | ret r => intro tun w; rfl
  | callFactory c k ih =>
    intro tun w
    rw [Bootstrap.run_callFactory, ih]
    exact deviceFactory_calls env c tun w

/-- The bootstrap modelled on the engine, run on a CIDR that parses, with no
failure before or after the factory call. -/
theorem nebulaMain_run_ok (env : Env) (c : IPNet) (ctl : Control) (tun : NebulaTun) (w : World)
    (pfx : Prefix) (h : ParsePrefix env.parseIPv6 (IPNet.String c) = Except.ok pfx) :
    (nebulaMain none c none ctl).run env tun w =
      (Except.ok ctl,
       { tun with prefix_ := pfx, PipeReader := some (PipeReader.ofPipe w.next),
                  PipeWriter := some (PipeWriter.ofPipe (w.next + 1)) },
       { pipes := Function.update (Function.update w.pipes w.next pipe.new) (w.next + 1) pipe.new,
         next := w.next + 2, calls := w.calls }) := by
  unfold nebulaMain
  simp only []
  rw [Bootstrap.run_callFactory, deviceFactory_ok env c tun w pfx h]
  rfl

/-- The bootstrap modelled on the engine fails when the CIDR does not parse. -/
theorem nebulaMain_run_parse_error (env : Env) (c : IPNet) (post : Option Error) (ctl : Control)
    (tun : NebulaTun) (w : World) (e : Error)
    (h : ParsePrefix env.parseIPv6 (IPNet.String c) = Except.error e) :
    (nebulaMain none c post ctl).run env tun w =
      (Except.error (E.Cause (E.Cause e "parse cidr") "Failed to get a tun/tap device"),
        tun, w) := by
  unfold nebulaMain
  simp only []
  rw [Bootstrap.run_callFactory, deviceFactory_error env c tun w e h]
  rfl

/-- A successful construction with the engine's bootstrap: the adapter holds the
handle, the parsed prefix and its two pipe ends, and `Start` has run on the
world in which both pipes exist. -/
theorem NewNebulaTun_ok (env : Env) (c : IPNet) (ctl : Control) (config : String) (w : World)
    (pfx : Prefix) (hload : env.LoadString config = none)
    (h : ParsePrefix env.parseIPv6 (IPNet.String c) = Except.ok pfx) :
    NewNebulaTun env (nebulaMain none c none ctl) config w =
      (Except.ok { ctl := some ctl, prefix_ := pfx,
                   PipeReader := some (PipeReader.ofPipe w.next),
                   PipeWriter := some (PipeWriter.ofPipe (w.next + 1)) },
       ctl.Start
         { pipes := Function.update (Function.update w.pipes w.next pipe.new)
             (w.next + 1) pipe.new,
           next := w.next + 2, calls := w.calls }) := by
  simp only [NewNebulaTun, hload, nebulaMain_run_ok env c ctl NebulaTun.zero w pfx h]

/-- The effect of `NebulaTun.Close` on an adapter wired to pipes `a` and `b`. -/
theorem tunClose_ofPipe (ctl : Control) (pfx : Prefix) (a b : Nat) (w : World) :
    NebulaTun.Close ⟨some ctl, pfx, some (PipeReader.ofPipe a), some (PipeWriter.ofPipe b)⟩ w =
      some (none,
        { pipes :=
            Function.update
              (Function.update (ctl.stopEffect w.pipes) a
                ((ctl.stopEffect w.pipes a).closeRead none).2) b
              ((Function.update (ctl.stopEffect w.pipes) a
                ((ctl.stopEffect w.pipes a).closeRead none).2 b).closeWrite none).2,
          next := w.next,
          calls := w.calls ++ [Call.Stop, Call.ReaderClose a, Call.WriterClose b] }) := by
  simp [NebulaTun.Close, Control.Stop, PipeReader.ofPipe, PipeWriter.ofPipe, pipe.closeRead,
    pipe.closeWrite]

/-! ## Printing and parsing an IPv4 CIDR -/

/-- One digit read by the loop of `parseIPv4`. -/
theorem parseIPv4.loop_digit (x : Nat) (rest : List Nat) (prev : Option Nat)
    (st : parseIPv4.State) (hx : x < 10) (hlead : ¬(st.digLen = 1 ∧ st.val = 0))
    (hval : st.val * 10 + x ≤ 255) :
    parseIPv4.loop ((x + 48) :: rest) prev st =
      parseIPv4.loop rest (some (x + 48))
        { st with val := st.val * 10 + x, digLen := st.digLen + 1 } := by
  have h1 : 48 ≤ x + 48 ∧ x + 48 ≤ 57 := by omega
  have h2 : st.val * 10 + (x + 48) - 48 = st.val * 10 + x := by omega
  have h3 : ¬ st.val * 10 + x > 255 := by omega
  rw [parseIPv4.loop]
  simp only [h1, and_self, if_true, hlead, if_false, h2, h3]

/-- A dot read by the loop of `parseIPv4` between two octets. -/
theorem parseIPv4.loop_dot (c : Nat) (rest : List Nat) (d : Nat) (st : parseIPv4.State)
    (hd : 48 ≤ d) (hpos : st.pos < 3) :
    parseIPv4.loop (46 :: c :: rest) (some d) st =
      parseIPv4.loop (c :: rest) (some 46)
        { fields := st.fields.set st.pos st.val, val := 0, pos := st.pos + 1, digLen := 0 } := by
  have h1 : ¬(48 ≤ 46 ∧ 46 ≤ 57) := by omega
  have h2 : ¬(some d = none ∨ c :: rest = [] ∨ some d = some 46) := by
    simp only [Option.some.injEq, reduceCtorEq, false_or]
    omega
  have h3 : ¬ st.pos = 3 := by omega
  rw [parseIPv4.loop]
  simp only [h1, if_false, h2, h3, if_true]

/-- The digits of a byte are decimal digits, and there is at least one. -/
theorem ubtoa_digits (v : Nat) :
    ∃ d ds, ubtoa v = d :: ds ∧ ∀ x ∈ d :: ds, 48 ≤ x ∧ (v < 256 → x ≤ 57) := by
  unfold ubtoa
  split
  · exact ⟨_, _, rfl, by intro x hx; simp at hx; omega⟩
  · split
    · exact ⟨_, _, rfl, by intro x hx; simp at hx; omega⟩
    · exact ⟨_, _, rfl, by intro x hx; simp at hx; omega⟩

/-- The loop of `parseIPv4` reads the digits of a byte back as that byte. -/
theorem parseIPv4.loop_ubtoa (v : Nat) (hv : v < 256) (rest : List Nat) (prev : Option Nat)
    (fields : List Nat) (pos : Nat) :
    ∃ d dl, 48 ≤ d ∧
      parseIPv4.loop (ubtoa v ++ rest) prev ⟨fields, 0, pos, 0⟩ =
        parseIPv4.loop rest (some d) ⟨fields, v, pos, dl⟩ := by
  unfold ubtoa
  split
  · refine ⟨v + 48, 1, by omega, ?_⟩
    rw [List.singleton_append, parseIPv4.loop_digit v rest prev _ (by omega) (by simp)
      (by simp; omega)]
    simp
  · split
    · refine ⟨v % 10 + 48, 2, by omega, ?_⟩
      rw [List.cons_append, List.singleton_append,
        parseIPv4.loop_digit (v / 10) _ prev _ (by omega) (by simp) (by simp; omega),
        parseIPv4.loop_digit (v % 10) _ _ _ (by omega) (by simp; omega) (by simp; omega)]
      congr 1
      simp
      omega
    · refine ⟨v % 10 + 48, 3, by omega, ?_⟩
      rw [List.cons_append, List.cons_append, List.singleton_append,
        parseIPv4.loop_digit (v / 100) _ prev _ (by omega) (by simp) (by simp; omega),
        parseIPv4.loop_digit (v / 10 % 10) _ _ _ (by omega) (by simp; omega) (by simp; omega),
        parseIPv4.loop_digit (v % 10) _ _ _ (by omega) (by simp) (by simp; omega)]
      congr 1
      simp
      omega

/-- The scan of `ParseAddr` passes over digits and stops at the first dot. -/
theorem ParseAddr.scan_digits (parseIPv6 : List Nat → Except Error Addr) (s : List Nat)
    (ds rest : List Nat) (hds : ∀ x ∈ ds, 48 ≤ x ∧ x ≤ 57) :
    ParseAddr.scan parseIPv6 s (ds ++ 46 :: rest) = parseIPv4 s := by
  induction ds with
  | nil => simp [ParseAddr.scan]
  | cons x ds ih =>
    have hx := hds x (List.mem_cons_self _ _)
    have h1 : ¬ x = 46 := by omega
    have h2 : ¬ x = 58 := by omega
    have h3 : ¬ x = 37 := by omega
    rw [List.cons_append, ParseAddr.scan]
    simp only [h1, h2, h3, if_false]
    exact ih (fun y hy => hds y (List.mem_cons_of_mem _ hy))

/-- Dotted decimal text of four bytes parses back to the same four bytes. -/
theorem parseIPv4_String (ip : Bytes4) (h0 : ip.b0 < 256) (h1 : ip.b1 < 256) (h2 : ip.b2 < 256)
    (h3 : ip.b3 < 256) :
    parseIPv4 (IP.String ip) = Except.ok (Addr.v4 ip.b0 ip.b1 ip.b2 ip.b3) := by
  obtain ⟨x1, xs1, hu1, -⟩ := ubtoa_digits ip.b1
  obtain ⟨x2, xs2, hu2, -⟩ := ubtoa_digits ip.b2
  obtain ⟨x3, xs3, hu3, -⟩ := ubtoa_digits ip.b3
  have e : IP.String ip =
      ubtoa ip.b0 ++ (46 :: (ubtoa ip.b1 ++ (46 :: (ubtoa ip.b2 ++ (46 :: (ubtoa ip.b3 ++ [])))))) := by
    simp [IP.String]
  unfold parseIPv4
  rw [e]
  obtain ⟨d0, l0, hd0, r0⟩ := parseIPv4.loop_ubtoa ip.b0 h0
    (46 :: (ubtoa ip.b1 ++ (46 :: (ubtoa ip.b2 ++ (46 :: (ubtoa ip.b3 ++ []))))))
    none [0, 0, 0, 0] 0
  rw [r0]
  rw [hu1, List.cons_append, parseIPv4.loop_dot _ _ d0 _ hd0 (by simp), ← List.cons_append, ← hu1]
  obtain ⟨d1, l1, hd1, r1⟩ := parseIPv4.loop_ubtoa ip.b1 h1
    (46 :: (ubtoa ip.b2 ++ (46 :: (ubtoa ip.b3 ++ []))))
    (some 46) ([0, 0, 0, 0].set 0 ip.b0) 1
  rw [r1]
  rw [hu2, List.cons_append, parseIPv4.loop_dot _ _ d1 _ hd1 (by simp), ← List.cons_append, ← hu2]
  obtain ⟨d2, l2, hd2, r2⟩ := parseIPv4.loop_ubtoa ip.b2 h2
    (46 :: (ubtoa ip.b3 ++ []))
    (some 46) (([0, 0, 0, 0].set 0 ip.b0).set 1 ip.b1) 2
  rw [r2]
  rw [hu3, List.cons_append, parseIPv4.loop_dot _ _ d2 _ hd2 (by simp), ← List.cons_append, ← hu3]
  obtain ⟨d3, l3, hd3, r3⟩ := parseIPv4.loop_ubtoa ip.b3 h3 []
    (some 46) ((([0, 0, 0, 0].set 0 ip.b0).set 1 ip.b1).set 2 ip.b2) 3
  rw [r3]
  simp [parseIPv4.loop]

/-- The function `ParseAddr` on dotted decimal text of four bytes. -/
theorem ParseAddr_String (parseIPv6 : List Nat → Except Error Addr) (ip : Bytes4)
    (h0 : ip.b0 < 256) (h1 : ip.b1 < 256) (h2 : ip.b2 < 256) (h3 : ip.b3 < 256) :
    ParseAddr parseIPv6 (IP.String ip) = Except.ok (Addr.v4 ip.b0 ip.b1 ip.b2 ip.b3) := by
  obtain ⟨x0, xs0, hu0, hdig⟩ := ubtoa_digits ip.b0
  have e : IP.String ip =
      ubtoa ip.b0 ++ 46 :: (ubtoa ip.b1 ++ [46] ++ ubtoa ip.b2 ++ [46] ++ ubtoa ip.b3) := by
    simp [IP.String]
  unfold ParseAddr
  nth_rewrite 2 [e]
  rw [ParseAddr.scan_digits parseIPv6 _ _ _
    (by rw [hu0]; exact fun x hx => ⟨(hdig x hx).1, (hdig x hx).2 h0⟩)]
  exact parseIPv4_String ip h0 h1 h2 h3

/-- The last slash of `pre/post` is right after `pre` when `post` holds none. -/
theorem LastIndexByteString_append (pre post : List Nat)
    (hpost : LastIndexByteString post 47 = none) :
    LastIndexByteString (pre ++ 47 :: post) 47 = some pre.length := by
  induction pre with
  | nil => simp [LastIndexByteString, hpost]
  | cons x pre ih => simp [LastIndexByteString, ih]

/-- A prefix length up to 32 is printed by `uitoa` without a slash and without
a leading zero, and `Atoi` reads it back. -/
theorem bits_text (k : Nat) (hk : k ≤ 32) :
    LastIndexByteString (uitoa k) 47 = none ∧ ParsePrefix.badLead (uitoa k) = false ∧
      Atoi (uitoa k) = Except.ok (k : Int) := by
  interval_cases k <;> exact ⟨rfl, rfl, rfl⟩

/-- The inner loop of `simpleMaskLength` counts at most one bit per round. -/
theorem simpleMaskLength.ones_le (fuel n v : Nat) :
    (simpleMaskLength.ones fuel n v).1 ≤ n + fuel := by
  induction fuel generalizing n v with
  | zero => simp [simpleMaskLength.ones]
  | succ fuel ih =>
    rw [simpleMaskLength.ones]
    split
    · have := ih (n + 1) ((v <<< 1) % 256)
      omega
    · simp

/-- The mask loop never counts more than 8 bits per byte. -/
theorem simpleMaskLength.loop_le (mask : List Nat) :
    ∀ n : Nat, simpleMaskLength.loop mask n ≤ ((n + 8 * mask.length : Nat) : Int) := by
  induction mask with
  | nil => intro n; simp [simpleMaskLength.loop]
  | cons v rest ih =>
    intro n
    rw [simpleMaskLength.loop]
    split
    · have := ih (n + 8)
      simp only [List.length_cons]
      have e : n + 8 + 8 * rest.length = n + 8 * (rest.length + 1) := by omega
      rw [e] at this
      exact this
    · have hle := simpleMaskLength.ones_le 8 n v
      rcases hones : simpleMaskLength.ones 8 n v with ⟨n', v'⟩
      rw [hones] at hle
      simp only [List.length_cons]
      split
      · omega
      · split
        · simp only at hle
          omega
        · omega

/-- The length of a canonical 4-byte mask is at most 32. -/
theorem simpleMaskLength_le (mask : Bytes4) : simpleMaskLength mask ≤ 32 := by
  have := simpleMaskLength.loop_le [mask.b0, mask.b1, mask.b2, mask.b3] 0
  simpa [simpleMaskLength] using this

/-- Printing an IPv4 network with a canonical mask of length `k` and parsing the
text gives the prefix with the same address and `k` bits. -/
theorem ParsePrefix_String (parseIPv6 : List Nat → Except Error Addr) (c : IPNet) (k : Nat)
    (h0 : c.IP.b0 < 256) (h1 : c.IP.b1 < 256) (h2 : c.IP.b2 < 256) (h3 : c.IP.b3 < 256)
    (hmask : simpleMaskLength c.Mask = (k : Int)) :
    ParsePrefix parseIPv6 (IPNet.String c)
      = Except.ok ⟨Addr.v4 c.IP.b0 c.IP.b1 c.IP.b2 c.IP.b3, k + 1⟩ := by
  have hk : k ≤ 32 := by
    have := simpleMaskLength_le c.Mask
    omega
  obtain ⟨hslash, hlead, hatoi⟩ := bits_text k hk
  have hne : ¬ ((k : Int) = -1) := by omega
  have e : IPNet.String c = IP.String c.IP ++ 47 :: uitoa k := by
    simp [IPNet.String, hmask, hne]
  unfold ParsePrefix
  rw [e, LastIndexByteString_append _ _ hslash]
  simp only [List.take_left', List.drop_succ_cons, List.drop_left',
    ParseAddr_String parseIPv6 c.IP h0 h1 h2 h3, Addr.hasZone, hlead, hatoi, Addr.Is6]
  have hk' : ¬ ((k : Int) < 0 ∨ (k : Int) > 32) := by omega
  have hk2 : (0 : Int) ≤ k ∧ (k : Int) ≤ 32 := by omega
  simp [hk', hk2, hk, hlead, hatoi, PrefixFrom, Addr.withoutZone, Addr.BitLen]

/-! ## C1 -/

/-- C1: whenever the underlying pipe read returns `(n, err)`, `nebulaDevice.Read`
returns the same byte count and bytes, with `os.ErrClosed` in place of
`io.ErrClosedPipe` and every other error (nil and `io.EOF` included) unchanged;
it never returns `io.ErrClosedPipe`. -/
theorem C1_read_translates_closed_pipe (t : nebulaDevice) (k : Nat) (w w' : World)
    (r : ReadResult) (h : t.PipeReader.Read k w = some (r, w')) :
    ∃ r', nebulaDevice.Read t k w = some (r', w') ∧ r'.n = r.n ∧ r'.data = r.data ∧
      (r.err = some Error.ErrClosedPipe → r'.err = some Error.ErrClosed) ∧
      (r.err ≠ some Error.ErrClosedPipe → r'.err = r.err) ∧
      r'.err ≠ some Error.ErrClosedPipe := by
  refine ⟨{ r with err := if r.err = some Error.ErrClosedPipe then some Error.ErrClosed
                          else r.err }, ?_, rfl, rfl, ?_, ?_, ?_⟩
  · simp [nebulaDevice.Read, h]
  · intro hc; simp [hc]
  · intro hc; simp [hc]
  · by_cases hc : r.err = some Error.ErrClosedPipe <;> simp [hc]

/-- C1 at a reader that returns 3 bytes together with `io.ErrClosedPipe`. -/
theorem C1_read_translates_closed_pipe_witness :
    ∃ r', nebulaDevice.Read
        { devFailingReadHalf with
          PipeReader := PipeReader.answering 1 ⟨3, [69, 0, 0], some Error.ErrClosedPipe⟩ none }
        3 World.empty = some (r', World.empty) ∧ r'.n = 3 ∧ r'.data = [69, 0, 0] ∧
      r'.err = some Error.ErrClosed := by
  obtain ⟨r', h1, h2, h3, h4, _, _⟩ :=
    C1_read_translates_closed_pipe
      { devFailingReadHalf with
        PipeReader := PipeReader.answering 1 ⟨3, [69, 0, 0], some Error.ErrClosedPipe⟩ none }
      3 World.empty World.empty ⟨3, [69, 0, 0], some Error.ErrClosedPipe⟩ rfl
  exact ⟨r', h1, h2, h3, h4 rfl⟩

/-! ## C5 -/

/-- C5: the halves of a device or of an adapter are the two halves of pipes made
by `io.Pipe()`. For every pair of outcomes `(e1, e2)` of the read-half close
and of the write-half close, `nebulaDevice.Close` and `NebulaTun.Close`
invoke both half-closes (the trace gains the read-half close and then the
write-half close, and both pipes end closed) and return `e1` if it is an
error and `e2` otherwise; the only outcome such halves have is nil. -/
theorem C5_close_attempts_both_halves (i j : Nat) (c : IPNet) (tree : Tree4 VpnIp)
    (ctl : Control) (pfx : Prefix) (w : World)
    (e1 e2 e1' e2' : Option Error) (w1 w2 w1' w2' : World)
    (h1 : (PipeReader.ofPipe i).Close w = (e1, w1))
    (h2 : (PipeWriter.ofPipe j).Close w1 = (e2, w2))
    (h1' : (PipeReader.ofPipe i).Close (ctl.Stop w) = (e1', w1'))
    (h2' : (PipeWriter.ofPipe j).Close w1' = (e2', w2')) :
    (nebulaDevice.Close ⟨c, tree, PipeReader.ofPipe i, PipeWriter.ofPipe j⟩ w
        = ((if e1 ≠ none then e1 else e2), w2) ∧
      w2.calls = w.calls ++ [Call.ReaderClose i, Call.WriterClose j] ∧
      (w2.pipes i).done = true ∧ (w2.pipes j).done = true ∧ e1 = none ∧ e2 = none) ∧
    (NebulaTun.Close ⟨some ctl, pfx, some (PipeReader.ofPipe i), some (PipeWriter.ofPipe j)⟩ w
        = some ((if e1' ≠ none then e1' else e2'), w2') ∧
      w2'.calls = w.calls ++ [Call.Stop, Call.ReaderClose i, Call.WriterClose j] ∧
      (w2'.pipes i).done = true ∧ (w2'.pipes j).done = true ∧ e1' = none ∧ e2' = none) := by
  simp only [PipeReader.ofPipe, PipeWriter.ofPipe, pipe.closeRead, pipe.closeWrite,
    Prod.mk.injEq] at h1 h2 h1' h2'
  obtain ⟨he1, hw1⟩ := h1
  obtain ⟨he2, hw2⟩ := h2
  obtain ⟨he1', hw1'⟩ := h1'
  obtain ⟨he2', hw2'⟩ := h2'
  subst he1 hw1 he2 hw2 he1' hw1' he2' hw2'
  constructor
  · refine ⟨?_, ?_, ?_, ?_, rfl, rfl⟩
    · simp [nebulaDevice.Close, PipeReader.ofPipe, PipeWriter.ofPipe, pipe.closeRead,
        pipe.closeWrite]
    · simp
    · by_cases hij : i = j
      · subst hij; simp
      · simp [Function.update, hij]
    · simp
  · refine ⟨?_, ?_, ?_, ?_, rfl, rfl⟩
    · simp [NebulaTun.Close, PipeReader.ofPipe, PipeWriter.ofPipe, pipe.closeRead,
        pipe.closeWrite]
    · simp [Control.Stop]
    · by_cases hij : i = j
      · subst hij; simp
      · simp [Function.update, hij]
    · simp

/-- C5 at the device and the adapter wired to pipes 1 and 0 in the empty world. -/
theorem C5_close_attempts_both_halves_witness :
    ∃ w2 w2',
      nebulaDevice.Close dev0 World.empty = (none, w2) ∧
      w2.calls = [Call.ReaderClose 1, Call.WriterClose 0] ∧
      NebulaTun.Close ⟨some ctl0, Prefix.zero, some (PipeReader.ofPipe 0),
          some (PipeWriter.ofPipe 1)⟩ World.empty = some (none, w2') ∧
      w2'.calls = [Call.Stop, Call.ReaderClose 0, Call.WriterClose 1] :=
  ⟨_, _,
    (C5_close_attempts_both_halves 1 0 cidr0 NewTree4 ctl0 Prefix.zero World.empty
      _ _ _ _ _ _ _ _ rfl rfl rfl rfl).1.1,
    (C5_close_attempts_both_halves 1 0 cidr0 NewTree4 ctl0 Prefix.zero World.empty
      _ _ _ _ _ _ _ _ rfl rfl rfl rfl).1.2.1,
    (C5_close_attempts_both_halves 0 1 cidr0 NewTree4 ctl0 Prefix.zero World.empty
      _ _ _ _ _ _ _ _ rfl rfl rfl rfl).2.1,
    (C5_close_attempts_both_halves 0 1 cidr0 NewTree4 ctl0 Prefix.zero World.empty
      _ _ _ _ _ _ _ _ rfl rfl rfl rfl).2.2.1⟩

/-! ## C9 -/

/-- C9: `NebulaTun.Close` calls `Stop` exactly once and first, then closes the
read half, then (when it gets there) the write half: for every pair of
outcomes of the half-closes the calls it adds to the trace are `Stop`, the
read-half close, and after it the write-half close; no close comes before
`Stop`, which occurs once. With `io.Pipe` halves all three calls occur. -/
theorem C9_stop_then_reader_then_writer (e1 e2 : Option Error) (i j : Nat) (r : ReadResult)
    (ctl : Control) (pfx : Prefix) (w : World) :
    (∃ res added, NebulaTun.Close ⟨some ctl, pfx, some (PipeReader.answering i r e1),
          some (PipeWriter.answering j e2)⟩ w = some res ∧
        res.2.calls = w.calls ++ added ∧
        added.head? = some Call.Stop ∧ added.count Call.Stop = 1 ∧
        added.tail = (if e1 = none then [Call.ReaderClose i, Call.WriterClose j]
                      else [Call.ReaderClose i])) ∧
    (∃ res, NebulaTun.Close ⟨some ctl, pfx, some (PipeReader.ofPipe i),
          some (PipeWriter.ofPipe j)⟩ w = some res ∧
        res.2.calls = w.calls ++ [Call.Stop, Call.ReaderClose i, Call.WriterClose j]) := by
  constructor
  · cases e1 <;> cases e2 <;>
      simp [NebulaTun.Close, Control.Stop, PipeReader.answering, PipeWriter.answering]
  · simp [NebulaTun.Close, Control.Stop, PipeReader.ofPipe, PipeWriter.ofPipe, pipe.closeRead,
      pipe.closeWrite]

/-! ## C10 -/

/-- C10: the device the factory callback builds has an empty router, so
`RouteFor` answers the zero address for every address. -/
theorem C10_route_for_empty_router (env : Env) (c : IPNet) (tun tun' : NebulaTun)
    (w w' : World) (dev : nebulaDevice)
    (h : NewNebulaTun.deviceFactory env c tun w = (Except.ok dev, tun', w')) (a : VpnIp) :
    dev.RouteFor a = 0 ∧ dev.routeTree.MostSpecificContains a = (false, 0) := by
  have hdev : dev.routeTree = NewTree4 := by
    cases hp : ParsePrefix env.parseIPv6 (IPNet.String c) with
    | error e =>
      rw [deviceFactory_error env c tun w e hp] at h
      cases h
    | ok pfx =>
      rw [deviceFactory_ok env c tun w pfx hp] at h
      cases h
      rfl
  simp only [nebulaDevice.RouteFor, hdev, Tree4.MostSpecificContains, NewTree4, Node.walk]
  split <;> simp [default]

/-- C10 at the device built for 10.42.0.0/24, queried for 10.42.0.7. -/
theorem C10_route_for_empty_router_witness :
    ∃ dev tun' w', NewNebulaTun.deviceFactory env0 cidr0 NebulaTun.zero World.empty
        = (Except.ok dev, tun', w') ∧ dev.RouteFor 0x0a2a0007 = 0 :=
  ⟨_, _, _, deviceFactory_ok env0 cidr0 NebulaTun.zero World.empty _ parse_cidr0,
    (C10_route_for_empty_router env0 cidr0 NebulaTun.zero _ World.empty _ _
      (deviceFactory_ok env0 cidr0 NebulaTun.zero World.empty _ parse_cidr0) 0x0a2a0007).1⟩

/-! ## C7 -/

/-- An address that `ParseAddr` returns is not the zero address, provided the
IPv6 parser returns none. -/
theorem ParseAddr_ne_zero (parseIPv6 : List Nat → Except Error Addr)
    (hv6 : ∀ s a, parseIPv6 s = Except.ok a → a ≠ Addr.zero) (s : List Nat) (a : Addr)
    (h : ParseAddr parseIPv6 s = Except.ok a) : a ≠ Addr.zero := by
  have hscan : ∀ t, ParseAddr.scan parseIPv6 s t = Except.ok a → a ≠ Addr.zero := by
    intro t
    induction t with
    | nil => intro h; simp [ParseAddr.scan] at h
    | cons x t ih =>
      intro h
      rw [ParseAddr.scan] at h
      split at h
      · unfold parseIPv4 at h
        split at h
        · cases h
        · split at h
          · cases h
          · cases h
            simp
      · split at h
        · exact hv6 s a h
        · split at h
          · cases h
          · exact ih h
  exact hscan s h

/-- A prefix that `ParsePrefix` returns is not the zero value `Prefix{}`. -/
theorem ParsePrefix_ne_zero (parseIPv6 : List Nat → Except Error Addr)
    (hv6 : ∀ s a, parseIPv6 s = Except.ok a → a ≠ Addr.zero) (s : List Nat) (pfx : Prefix)
    (h : ParsePrefix parseIPv6 s = Except.ok pfx) : pfx ≠ Prefix.zero := by
  unfold ParsePrefix at h
  split at h
  · cases h
  · split at h
    · cases h
    · rename_i ip hip
      have hne := ParseAddr_ne_zero parseIPv6 hv6 _ ip hip
      have key : ∀ bits : Int,
          (Except.ok (PrefixFrom ip bits) : Except Error Prefix) = Except.ok pfx →
            pfx ≠ Prefix.zero := by
        intro bits hb hz
        cases hb
        have : ip.withoutZone = Addr.zero := congrArg Prefix.ip hz
        cases ip <;> simp [Addr.withoutZone] at this hne
      simp only [] at h
      repeat' split at h
      all_goals first | exact key _ h | cases h

/-- C7: no adapter with an unset prefix is ever returned. With the engine's
bootstrap, a run in which the factory callback is not invoked is a failed
bootstrap, and `NewNebulaTun` returns an error; and whenever `NewNebulaTun`
returns an adapter, the bootstrap did invoke the factory, the CIDR parsed,
and `Prefix()` is the parsed prefix, which is not the zero value. -/
theorem C7_prefix_set_or_construction_fails (env : Env) (pre : Option Error) (c : IPNet)
    (post : Option Error) (ctl : Control) (config : String) (w : World)
    (hv6 : ∀ s a, env.parseIPv6 s = Except.ok a → a ≠ Addr.zero) :
    (∀ e, pre = some e →
      (nebulaMain pre c post ctl).run env NebulaTun.zero w
          = (Except.error e, NebulaTun.zero, w) ∧
      ∃ e', NewNebulaTun env (nebulaMain pre c post ctl) config w = (Except.error e', w)) ∧
    (∀ tun w1, NewNebulaTun env (nebulaMain pre c post ctl) config w = (Except.ok tun, w1) →
      pre = none ∧ ParsePrefix env.parseIPv6 (IPNet.String c) = Except.ok tun.Prefix ∧
      tun.Prefix ≠ Prefix.zero ∧ tun.PipeReader.isSome ∧ tun.PipeWriter.isSome) := by
  constructor
  · intro e he
    subst he
    refine ⟨rfl, ?_⟩
    cases hl : env.LoadString config with
    | some err =>
      exact ⟨E.Cause err "Failed to load nebula config", by simp [NewNebulaTun, hl]⟩
    | none =>
      exact ⟨E.Cause e "Failed to setup nebula",
        by simp [NewNebulaTun, hl, nebulaMain, Bootstrap.run]⟩
  · intro tun w1 hok
    cases hl : env.LoadString config with
    | some err => simp [NewNebulaTun, hl] at hok
    | none =>
      cases pre with
      | some e => simp [NewNebulaTun, hl, nebulaMain, Bootstrap.run] at hok
      | none =>
        cases hp : ParsePrefix env.parseIPv6 (IPNet.String c) with
        | error e =>
          simp [NewNebulaTun, hl, nebulaMain_run_parse_error env c post ctl _ w e hp] at hok
        | ok pfx =>
          cases post with
          | some e =>
            unfold NewNebulaTun nebulaMain at hok
            simp only [hl] at hok
            rw [Bootstrap.run_callFactory, deviceFactory_ok env c _ w pfx hp] at hok
            simp [Bootstrap.run] at hok
          | none =>
            rw [NewNebulaTun_ok env c ctl config w pfx hl hp] at hok
            simp only [Prod.mk.injEq, Except.ok.injEq] at hok
            obtain ⟨htun, -⟩ := hok
            subst htun
            exact ⟨rfl, rfl, ParsePrefix_ne_zero env.parseIPv6 hv6 _ pfx hp, rfl, rfl⟩

/-- C7 at the bridge for 10.42.0.0/24: the adapter returned holds 10.42.0.0/24. -/
theorem C7_prefix_set_or_construction_fails_witness :
    ∃ tun w1, NewNebulaTun env0 (nebulaMain none cidr0 none ctl0) config0 World.empty
        = (Except.ok tun, w1) ∧
      tun.Prefix = ⟨Addr.v4 10 42 0 0, 25⟩ ∧ tun.Prefix ≠ Prefix.zero :=
  ⟨_, _, NewNebulaTun_ok env0 cidr0 ctl0 config0 World.empty _ rfl parse_cidr0, rfl,
    ((C7_prefix_set_or_construction_fails env0 none cidr0 none ctl0 config0 World.empty
      (fun _ _ h => by cases h)).2 _ _
      (NewNebulaTun_ok env0 cidr0 ctl0 config0 World.empty _ rfl parse_cidr0)).2.2.1⟩

/-! ## C6 -/

/-- C6: `NewNebulaTun` returns an error (and no adapter) exactly when the
configuration fails to load or the bootstrap fails; then `Start` is not called
(the trace is unchanged). On success `Start` is called exactly once, on the
handle the bootstrap returned and on the world the bootstrap left behind. For
the engine's bootstrap a CIDR that does not parse makes the construction
fail, and on success both pipes are already wired when `Start` runs. The last
part shows such a failure for the non-canonical mask 255.0.255.0. -/
theorem C6_failure_and_single_start (env : Env) (main : Bootstrap) (config : String) (w : World)
    (c : IPNet) (post : Option Error) (ctl : Control) :
    ((∃ e, (NewNebulaTun env main config w).1 = Except.error e) ↔
      ((env.LoadString config).isSome ∨
        ∃ e, (main.run env NebulaTun.zero w).1 = Except.error e)) ∧
    (∀ e, (NewNebulaTun env main config w).1 = Except.error e →
      (NewNebulaTun env main config w).2.calls = w.calls ∧
      (NewNebulaTun env main config w).2.calls.count Call.Start = w.calls.count Call.Start) ∧
    (∀ tun, (NewNebulaTun env main config w).1 = Except.ok tun →
      ∃ h, (main.run env NebulaTun.zero w).1 = Except.ok h ∧ tun.ctl = some h ∧
        (NewNebulaTun env main config w).2 = h.Start (main.run env NebulaTun.zero w).2.2 ∧
        (NewNebulaTun env main config w).2.calls = w.calls ++ [Call.Start] ∧
        (NewNebulaTun env main config w).2.calls.count Call.Start
          = w.calls.count Call.Start + 1) ∧
    (∀ e, ParsePrefix env.parseIPv6 (IPNet.String c) = Except.error e →
      ∃ e', NewNebulaTun env (nebulaMain none c post ctl) config w = (Except.error e', w)) ∧
    (∀ tun, (NewNebulaTun env (nebulaMain none c post ctl) config w).1 = Except.ok tun →
      tun.PipeReader = some (PipeReader.ofPipe w.next) ∧
      tun.PipeWriter = some (PipeWriter.ofPipe (w.next + 1)) ∧
      (NewNebulaTun env (nebulaMain none c post ctl) config w).2 =
        ctl.Start
          { pipes := Function.update (Function.update w.pipes w.next pipe.new)
              (w.next + 1) pipe.new,
            next := w.next + 2, calls := w.calls }) ∧
    NewNebulaTun env0 (nebulaMain none ⟨⟨10, 42, 0, 5⟩, ⟨255, 0, 255, 0⟩⟩ none ctl0) ""
        World.empty =
      (Except.error (E.Cause (E.Cause (E.Cause (Error.other "bad bits after slash") "parse cidr")
        "Failed to get a tun/tap device") "Failed to setup nebula"), World.empty) := by
  have hcalls := Bootstrap.run_calls env main NebulaTun.zero w
  refine ⟨?_, ?_, ?_, ?_, ?_, rfl⟩
  · cases hl : env.LoadString config with
    | some err => simp [NewNebulaTun, hl]
    | none =>
      rcases hr : main.run env NebulaTun.zero w with ⟨r, tun, w1⟩
      cases r <;> simp [NewNebulaTun, hl, hr]
  · intro e he
    cases hl : env.LoadString config with
    | some err => simp [NewNebulaTun, hl]
    | none =>
      rcases hr : main.run env NebulaTun.zero w with ⟨r, tun, w1⟩
      rw [hr] at hcalls
      cases r with
      | error err => simp only [NewNebulaTun, hl, hr]; simp_all
      | ok h => simp [NewNebulaTun, hl, hr] at he
  · intro tun0 hok
    cases hl : env.LoadString config with
    | some err => simp [NewNebulaTun, hl] at hok
    | none =>
      rcases hr : main.run env NebulaTun.zero w with ⟨r, tun, w1⟩
      rw [hr] at hcalls
      cases r with
      | error err => simp [NewNebulaTun, hl, hr] at hok
      | ok h =>
        simp only [NewNebulaTun, hl, hr, Except.ok.injEq] at hok ⊢
        subst hok
        have hc : w1.calls = w.calls := hcalls
        refine ⟨h, rfl, rfl, rfl, ?_, ?_⟩
        · simp [Control.Start, hc]
        · simp [Control.Start, hc]
  · intro e he
    cases hl : env.LoadString config with
    | some err =>
      exact ⟨E.Cause err "Failed to load nebula config", by simp [NewNebulaTun, hl]⟩
    | none =>
      exact ⟨E.Cause (E.Cause (E.Cause e "parse cidr") "Failed to get a tun/tap device")
        "Failed to setup nebula",
        by simp [NewNebulaTun, hl, nebulaMain_run_parse_error env c post ctl _ w e he]⟩
  · intro tun0 hok
    cases hl : env.LoadString config with
    | some err => simp [NewNebulaTun, hl] at hok
    | none =>
      cases hp : ParsePrefix env.parseIPv6 (IPNet.String c) with
      | error e =>
        simp [NewNebulaTun, hl, nebulaMain_run_parse_error env c post ctl _ w e hp] at hok
      | ok pfx =>
        cases post with
        | some e =>
          unfold NewNebulaTun nebulaMain at hok
          simp only [hl] at hok
          rw [Bootstrap.run_callFactory, deviceFactory_ok env c _ w pfx hp] at hok
          simp [Bootstrap.run] at hok
        | none =>
          have hrun := nebulaMain_run_ok env c ctl NebulaTun.zero w pfx hp
          simp only [NewNebulaTun, hl, hrun, Except.ok.injEq] at hok
          subst hok
          refine ⟨rfl, rfl, ?_⟩
          simp only [NewNebulaTun, hl, hrun]

/-! ## C2 -/

/-- Reading a pipe whose read half is closed returns `(0, io.ErrClosedPipe)` at once. -/
theorem pipe.read_of_readClosed (p : pipe) (k : Nat) (h : p.readClosed) :
    p.read k = some (⟨0, [], some Error.ErrClosedPipe⟩, p) := by
  obtain ⟨hd, hr⟩ := h
  cases hre : p.rerr with
  | none => exact absurd hre hr
  | some e => simp [pipe.read, hd, pipe.readCloseError, hre]

/-- A world is unchanged by writing a pipe back into its own place. -/
theorem World.update_self (w : World) (i : Nat) :
    ({ w with pipes := Function.update w.pipes i (w.pipes i) } : World) = w := by
  cases w
  simp

/-- A device reading from a pipe whose read half is closed gets `(0, os.ErrClosed)` at once. -/
theorem nebulaDevice.Read_of_readClosed (dev : nebulaDevice) (i : Nat)
    (hdev : dev.PipeReader = PipeReader.ofPipe i) (k : Nat) (w : World)
    (h : (w.pipes i).readClosed) :
    nebulaDevice.Read dev k w = some (⟨0, [], some Error.ErrClosed⟩, w) := by
  simp only [nebulaDevice.Read, hdev, PipeReader.ofPipe, pipe.read_of_readClosed _ k h]
  simp [World.update_self]

/-- Every call of either owner keeps the read half of the device's pipe closed. -/
theorem Op.step_readClosed (a : Nat) (ctlo : Option Control) (c : IPNet) (pfx : Prefix) (s : Run)
    (op : Op) (h : (s.w.pipes (a + 1)).readClosed) :
    ((Op.step
        ⟨ctlo, pfx, some (PipeReader.ofPipe a), some (PipeWriter.ofPipe (a + 1))⟩
        { cidr := c, routeTree := NewTree4, PipeReader := PipeReader.ofPipe (a + 1),
          PipeWriter := PipeWriter.ofPipe a } s op).w.pipes (a + 1)).readClosed := by
  obtain ⟨hd, hr⟩ := h
  have hne : a + 1 ≠ a := by omega
  cases op with
  | tunRead k =>
    simp only [Op.step, NebulaTun.Read, PipeReader.ofPipe]
    cases hrd : (s.w.pipes a).read k with
    | none => exact ⟨hd, hr⟩
    | some rp => simpa [pipe.readClosed, Function.update, hne] using ⟨hd, hr⟩
  | tunWrite b =>
    simp [Op.step, NebulaTun.Write, PipeWriter.ofPipe, pipe.write, hd, pipe.readClosed, hr]
  | tunReaderClose =>
    simpa [Op.step, PipeReader.ofPipe, pipe.readClosed, Function.update, hne] using ⟨hd, hr⟩
  | tunWriterClose =>
    simpa [Op.step, PipeWriter.ofPipe, pipe.closeWrite, pipe.readClosed] using hr
  | devRead k =>
    simp only [Op.step, nebulaDevice.Read, PipeReader.ofPipe,
      pipe.read_of_readClosed _ k ⟨hd, hr⟩]
    simpa [pipe.readClosed] using ⟨hd, hr⟩
  | devWrite b =>
    simpa [Op.step, nebulaDevice.Write, PipeWriter.ofPipe, pipe.readClosed, Function.update, hne]
      using ⟨hd, hr⟩
  | devClose =>
    simp only [Op.step, nebulaDevice.Close, PipeReader.ofPipe, PipeWriter.ofPipe,
      pipe.closeRead, pipe.closeWrite]
    cases hre : (s.w.pipes (a + 1)).rerr with
    | none => exact absurd hre hr
    | some e => simp [pipe.readClosed, Function.update, hne, onceError.Store, hre]

/-- A whole schedule keeps the read half of the device's pipe closed. -/
theorem runOps_readClosed (a : Nat) (ctlo : Option Control) (c : IPNet) (pfx : Prefix)
    (ops : List Op) :
    ∀ s : Run, (s.w.pipes (a + 1)).readClosed →
      ((runOps
        ⟨ctlo, pfx, some (PipeReader.ofPipe a), some (PipeWriter.ofPipe (a + 1))⟩
        { cidr := c, routeTree := NewTree4, PipeReader := PipeReader.ofPipe (a + 1),
          PipeWriter := PipeWriter.ofPipe a } s ops).w.pipes (a + 1)).readClosed := by
  induction ops with
  | nil => intro s h; exact h
  | cons op ops ih =>
    intro s h
    exact ih _ (Op.step_readClosed a ctlo c pfx s op h)

/-- C2: on a device built by the factory callback, once `nebulaDevice.Close` has
been called (from any state of the pipes), and whatever calls either owner
makes afterwards, `nebulaDevice.Read` returns at once with 0 bytes and
`os.ErrClosed`, leaving the world as it is. -/
theorem C2_read_after_device_close (env : Env) (c : IPNet) (tun0 tun : NebulaTun)
    (w0 w : World) (dev : nebulaDevice)
    (h : NewNebulaTun.deviceFactory env c tun0 w0 = (Except.ok dev, tun, w))
    (w1 : World) (tunGot devGot : List Nat) (after : List Op) (k : Nat) :
    (nebulaDevice.Close dev w1).1 = none ∧
    nebulaDevice.Read dev k (runOps tun dev ⟨(nebulaDevice.Close dev w1).2, tunGot, devGot⟩ after).w
      = some (⟨0, [], some Error.ErrClosed⟩,
          (runOps tun dev ⟨(nebulaDevice.Close dev w1).2, tunGot, devGot⟩ after).w) := by
  cases hp : ParsePrefix env.parseIPv6 (IPNet.String c) with
  | error e =>
    rw [deviceFactory_error env c tun0 w0 e hp] at h
    cases h
  | ok pfx =>
    rw [deviceFactory_ok env c tun0 w0 pfx hp] at h
    cases h
    have hne : w0.next + 1 ≠ w0.next := by omega
    have hclosed : (((nebulaDevice.Close
        { cidr := c, routeTree := NewTree4, PipeReader := PipeReader.ofPipe (w0.next + 1),
          PipeWriter := PipeWriter.ofPipe w0.next } w1).2).pipes (w0.next + 1)).readClosed := by
      simp only [nebulaDevice.Close, PipeReader.ofPipe, PipeWriter.ofPipe, pipe.closeRead,
        pipe.closeWrite]
      cases hre : (w1.pipes (w0.next + 1)).rerr <;>
        simp [pipe.readClosed, Function.update, hne, onceError.Store, hre]
    have hinv := runOps_readClosed w0.next tun0.ctl c pfx after
      ⟨(nebulaDevice.Close
        { cidr := c, routeTree := NewTree4, PipeReader := PipeReader.ofPipe (w0.next + 1),
          PipeWriter := PipeWriter.ofPipe w0.next } w1).2, tunGot, devGot⟩ hclosed
    constructor
    · simp [nebulaDevice.Close, PipeReader.ofPipe, PipeWriter.ofPipe, pipe.closeRead,
        pipe.closeWrite]
    · exact nebulaDevice.Read_of_readClosed _ (w0.next + 1) rfl k _ hinv

/-- C2 at the device built for 10.42.0.0/24: the device is closed, the consumer
then writes and closes its writer, and a read with a 1500-byte buffer follows. -/
theorem C2_read_after_device_close_witness :
    ∃ dev tun w, NewNebulaTun.deviceFactory env0 cidr0 NebulaTun.zero World.empty
        = (Except.ok dev, tun, w) ∧
      nebulaDevice.Read dev 1500
          (runOps tun dev ⟨(nebulaDevice.Close dev w).2, [], []⟩
            [Op.tunWrite [69, 0], Op.tunWriterClose]).w
        = some (⟨0, [], some Error.ErrClosed⟩,
            (runOps tun dev ⟨(nebulaDevice.Close dev w).2, [], []⟩
              [Op.tunWrite [69, 0], Op.tunWriterClose]).w) :=
  ⟨_, _, _, deviceFactory_ok env0 cidr0 NebulaTun.zero World.empty _ parse_cidr0,
    (C2_read_after_device_close env0 cidr0 NebulaTun.zero _ World.empty _ _
      (deviceFactory_ok env0 cidr0 NebulaTun.zero World.empty _ parse_cidr0) _ [] []
      [Op.tunWrite [69, 0], Op.tunWriterClose] 1500).2⟩

/-! ## C3 -/

/-- Closing a device that reads from pipe `a + 1` and writes to pipe `a` leaves
the read half of pipe `a + 1` closed. -/
theorem closeEffect_readClosed (c : IPNet) (tree : Tree4 VpnIp) (a : Nat) (pipes : Nat → pipe) :
    (nebulaDevice.closeEffect ⟨c, tree, PipeReader.ofPipe (a + 1), PipeWriter.ofPipe a⟩
      pipes (a + 1)).readClosed := by
  have hne : a + 1 ≠ a := by omega
  simp only [nebulaDevice.closeEffect, nebulaDevice.Close, PipeReader.ofPipe, PipeWriter.ofPipe,
    pipe.closeRead, pipe.closeWrite]
  cases hre : (pipes (a + 1)).rerr <;>
    simp [pipe.readClosed, Function.update, hne, onceError.Store, hre]

/-- After `NebulaTun.Close` with a `Stop` that leaves the device's read half
closed, the device's read returns `(0, os.ErrClosed)` at once, from any world. -/
theorem read_after_tunClose (ctl : Control) (pfx : Prefix) (c : IPNet) (a k : Nat) (W : World)
    (hstop : ∀ pipes, (ctl.stopEffect pipes (a + 1)).readClosed) :
    ∃ w2, NebulaTun.Close
        ⟨some ctl, pfx, some (PipeReader.ofPipe a), some (PipeWriter.ofPipe (a + 1))⟩ W
          = some (none, w2) ∧
      nebulaDevice.Read ⟨c, NewTree4, PipeReader.ofPipe (a + 1), PipeWriter.ofPipe a⟩ k w2 =
        some (⟨0, [], some Error.ErrClosed⟩, w2) := by
  refine ⟨_, tunClose_ofPipe _ _ _ _ _, ?_⟩
  have hne : a + 1 ≠ a := by omega
  apply nebulaDevice.Read_of_readClosed _ (a + 1) rfl
  obtain ⟨hd, hr⟩ := hstop W.pipes
  cases hre : (ctl.stopEffect W.pipes (a + 1)).rerr with
  | none => exact absurd hre hr
  | some e => simp [pipe.readClosed, Function.update, hne, pipe.closeWrite, hre]

/-- C3: for a bridge built by `NewNebulaTun`, whose lifecycle handle is the
engine's (its `Stop` closes the device the factory built), after any calls of
the two owners and then `NebulaTun.Close`, which returns nil, a
`nebulaDevice.Read` on the paired device returns at once with 0 bytes and
`os.ErrClosed`. -/
theorem C3_read_after_consumer_close (env : Env) (c : IPNet) (ctl : Control) (config : String)
    (w0 w' : World) (dev : nebulaDevice) (tun' : NebulaTun)
    (hload : env.LoadString config = none)
    (hdev : NewNebulaTun.deviceFactory env c NebulaTun.zero w0 = (Except.ok dev, tun', w'))
    (hstop : ctl.stopEffect = dev.closeEffect) (ops : List Op) (k : Nat) :
    ∃ tun w1 w2,
      NewNebulaTun env (nebulaMain none c none ctl) config w0 = (Except.ok tun, w1) ∧
      NebulaTun.Close tun (runOps tun dev ⟨w1, [], []⟩ ops).w = some (none, w2) ∧
      nebulaDevice.Read dev k w2 = some (⟨0, [], some Error.ErrClosed⟩, w2) := by
  cases hp : ParsePrefix env.parseIPv6 (IPNet.String c) with
  | error e =>
    rw [deviceFactory_error env c _ w0 e hp] at hdev
    cases hdev
  | ok pfx =>
    rw [deviceFactory_ok env c _ w0 pfx hp] at hdev
    cases hdev
    obtain ⟨w2, hclose, hread⟩ := read_after_tunClose ctl pfx c w0.next k
      (runOps ⟨some ctl, pfx, some (PipeReader.ofPipe w0.next),
          some (PipeWriter.ofPipe (w0.next + 1))⟩
        ⟨c, NewTree4, PipeReader.ofPipe (w0.next + 1), PipeWriter.ofPipe w0.next⟩
        ⟨ctl.Start
          { pipes := Function.update (Function.update w0.pipes w0.next pipe.new)
              (w0.next + 1) pipe.new,
            next := w0.next + 2, calls := w0.calls }, [], []⟩ ops).w
      (by intro pipes; rw [hstop]; exact closeEffect_readClosed c NewTree4 w0.next pipes)
    exact ⟨_, _, w2, NewNebulaTun_ok env c ctl config w0 pfx hload hp, hclose, hread⟩

/-- C3 at the bridge for 10.42.0.0/24 with the engine's handle for its device:
the consumer writes two bytes, the device reads one, the consumer closes, and
the device then reads `os.ErrClosed`. -/
theorem C3_read_after_consumer_close_witness :
    ∃ tun w1 w2,
      NewNebulaTun env0 (nebulaMain none cidr0 none (engineControl dev0)) config0 World.empty
        = (Except.ok tun, w1) ∧
      NebulaTun.Close tun
          (runOps tun dev0 ⟨w1, [], []⟩ [Op.tunWrite [69, 0], Op.devRead 1]).w
        = some (none, w2) ∧
      nebulaDevice.Read dev0 1500 w2 = some (⟨0, [], some Error.ErrClosed⟩, w2) :=
  C3_read_after_consumer_close env0 cidr0 (engineControl dev0) config0 World.empty _ dev0 _ rfl
    (deviceFactory_ok env0 cidr0 NebulaTun.zero World.empty _ parse_cidr0) rfl
    [Op.tunWrite [69, 0], Op.devRead 1] 1500

/-! ## C4 -/

/-- What a read does to an open pipe: it blocks only when nothing is offered;
otherwise it returns no error, the bytes it returns followed by the bytes
still pending are the bytes pending before, and with a non-empty buffer the
pipe gets strictly smaller (in bytes plus offered slices). -/
theorem pipe.read_open (p : pipe) (k : Nat) (hd : p.done = false) :
    (p.read k = none ∧ p.wrCh = []) ∨
    ∃ r p', p.read k = some (r, p') ∧ r.err = none ∧ r.n = r.data.length ∧
      r.data ++ p'.pending = p.pending ∧ p'.done = false ∧ p'.wrCh.length ≤ p.wrCh.length ∧
      (0 < k → p'.pending.length + p'.wrCh.length < p.pending.length + p.wrCh.length) := by
  cases hq : p.wrCh with
  | nil => left; simp [pipe.read, hd, hq]
  | cons bw waiting =>
    right
    by_cases hb : (bw.drop (min k bw.length)).length > 0
    · refine ⟨⟨min k bw.length, bw.take (min k bw.length), none⟩,
        { p with wrCh := bw.drop (min k bw.length) :: waiting },
        by simp only [pipe.read, hd, hq, if_pos hb]; rfl, rfl, ?_, ?_, hd, ?_, ?_⟩
      · simp
      · simp only [pipe.pending, hq, List.flatten_cons]
        rw [← List.append_assoc, List.take_append_drop]
      · simp [hq]
      · intro hk
        simp only [pipe.pending, hq, List.flatten_cons, List.length_append,
          List.length_cons, List.length_drop]
        simp only [List.length_drop] at hb
        omega
    · refine ⟨⟨min k bw.length, bw.take (min k bw.length), none⟩, { p with wrCh := waiting },
        by simp only [pipe.read, hd, hq, if_neg hb]; rfl, rfl, ?_, ?_, hd, ?_, ?_⟩
      · simp
      · simp only [pipe.pending, hq, List.flatten_cons]
        have : bw.take (min k bw.length) = bw := by
          apply List.take_of_length_le
          simp only [List.length_drop] at hb
          omega
        rw [this]
      · simp [hq]
      · intro _
        simp only [pipe.pending, hq, List.flatten_cons, List.length_append,
          List.length_cons]
        omega

/-- A read or a write keeps the transfer invariant, adding its payload to the
bytes written. -/
theorem Op.step_conserves (a : Nat) (ctlo : Option Control) (c : IPNet) (pfx : Prefix) (s : Run)
    (op : Op) (T D : List Nat) (n : Nat) (hop : op.isTransfer = true)
    (h : s.conserves a T D n) :
    (Op.step
        ⟨ctlo, pfx, some (PipeReader.ofPipe a), some (PipeWriter.ofPipe (a + 1))⟩
        { cidr := c, routeTree := NewTree4, PipeReader := PipeReader.ofPipe (a + 1),
          PipeWriter := PipeWriter.ofPipe a } s op).conserves a
      (T ++ op.tunPayload) (D ++ op.devPayload) (n + 1) := by
  obtain ⟨hda, hdb, hT, hD, hnb, hna⟩ := h
  have hne : a + 1 ≠ a := by omega
  have hne' : a ≠ a + 1 := by omega
  cases op with
  | tunRead k =>
    rcases pipe.read_open _ k hda with ⟨hrd, _⟩ | ⟨r, p', hrd, _, _, hpend, hd', hlen, _⟩
    · simp only [Op.step, NebulaTun.Read, PipeReader.ofPipe, Op.tunPayload, Op.devPayload,
        List.append_nil, hrd]
      exact ⟨hda, hdb, hT, hD, by omega, by omega⟩
    · simp only [Op.step, NebulaTun.Read, PipeReader.ofPipe, Op.tunPayload, Op.devPayload,
        List.append_nil, hrd]
      refine ⟨?_, ?_, ?_, ?_, ?_, ?_⟩
      · simpa using hd'
      · simpa [Function.update, hne] using hdb
      · simpa [Function.update, hne] using hT
      · simp only [Function.update_same, List.append_assoc, hpend]; exact hD
      · simp only [Function.update, hne, dite_false]; omega
      · simp only [Function.update_same]; omega
  | tunWrite b =>
    simp only [Op.step, NebulaTun.Write, PipeWriter.ofPipe, pipe.write, hdb, Op.tunPayload,
      Op.devPayload, List.append_nil]
    refine ⟨?_, ?_, ?_, ?_, ?_, ?_⟩
    · simpa [Function.update, hne'] using hda
    · simp [hdb]
    · simp [pipe.pending, ← hT, pipe.pending]
    · simpa [Function.update, hne'] using hD
    · simp; omega
    · simp only [Bool.false_eq_true, if_false, Function.update, hne', dite_false]; omega
  | tunReaderClose => simp [Op.isTransfer] at hop
  | tunWriterClose => simp [Op.isTransfer] at hop
  | devRead k =>
    rcases pipe.read_open _ k hdb with ⟨hrd, _⟩ | ⟨r, p', hrd, _, _, hpend, hd', hlen, _⟩
    · simp only [Op.step, nebulaDevice.Read, PipeReader.ofPipe, Op.tunPayload, Op.devPayload,
        List.append_nil, hrd]
      exact ⟨hda, hdb, hT, hD, by omega, by omega⟩
    · simp only [Op.step, nebulaDevice.Read, PipeReader.ofPipe, Op.tunPayload, Op.devPayload,
        List.append_nil, hrd]
      refine ⟨?_, ?_, ?_, ?_, ?_, ?_⟩
      · simpa [Function.update, hne'] using hda
      · simpa using hd'
      · simp only [Function.update_same, List.append_assoc, hpend]; exact hT
      · simpa [Function.update, hne'] using hD
      · simp only [Function.update_same]; omega
      · simp only [Function.update, hne', dite_false]; omega
  | devWrite b =>
    simp only [Op.step, nebulaDevice.Write, PipeWriter.ofPipe, pipe.write, hda, Op.tunPayload,
      Op.devPayload, List.append_nil]
    refine ⟨?_, ?_, ?_, ?_, ?_, ?_⟩
    · simp [hda]
    · simpa [Function.update, hne] using hdb
    · simpa [Function.update, hne] using hT
    · simp [pipe.pending, ← hD, pipe.pending]
    · simp only [Bool.false_eq_true, if_false, Function.update, hne, dite_false]; omega
    · simp; omega
  | devClose => simp [Op.isTransfer] at hop

/-- A schedule of reads and writes keeps the transfer invariant. -/
theorem runOps_conserves (a : Nat) (ctlo : Option Control) (c : IPNet) (pfx : Prefix)
    (ops : List Op) :
    ∀ (s : Run) (T D : List Nat) (n : Nat), (∀ op ∈ ops, op.isTransfer = true) →
      s.conserves a T D n →
      (runOps
        ⟨ctlo, pfx, some (PipeReader.ofPipe a), some (PipeWriter.ofPipe (a + 1))⟩
        { cidr := c, routeTree := NewTree4, PipeReader := PipeReader.ofPipe (a + 1),
          PipeWriter := PipeWriter.ofPipe a } s ops).conserves a
        (T ++ ops.flatMap Op.tunPayload) (D ++ ops.flatMap Op.devPayload) (n + ops.length) := by
  induction ops with
  | nil => intro s T D n _ h; simpa using h
  | cons op ops ih =>
    intro s T D n hops h
    have h1 := Op.step_conserves a ctlo c pfx s op T D n (hops op (List.mem_cons_self _ _)) h
    have h2 := ih _ _ _ _ (fun o ho => hops o (List.mem_cons_of_mem _ ho)) h1
    simpa [runOps, List.flatMap_cons, List.append_assoc, Nat.add_assoc, Nat.add_comm 1]
      using h2

/-- A device read with a non-empty buffer on an open pipe that is not empty makes
the pipe smaller; on an empty pipe it changes nothing. -/
theorem Op.step_devRead_size (a : Nat) (ctlo : Option Control) (c : IPNet) (pfx : Prefix)
    (s : Run) (k : Nat) (hk : 0 < k) (hd : (s.w.pipes (a + 1)).done = false) :
    ((Op.step
        ⟨ctlo, pfx, some (PipeReader.ofPipe a), some (PipeWriter.ofPipe (a + 1))⟩
        { cidr := c, routeTree := NewTree4, PipeReader := PipeReader.ofPipe (a + 1),
          PipeWriter := PipeWriter.ofPipe a } s (Op.devRead k)).w.pipes (a + 1)).size
      ≤ (s.w.pipes (a + 1)).size - 1 := by
  rcases pipe.read_open _ k hd with ⟨hrd, hq⟩ | ⟨r, p', hrd, _, _, _, _, _, hlt⟩
  · simp only [Op.step, nebulaDevice.Read, PipeReader.ofPipe, hrd]
    simp [pipe.size, pipe.pending, hq]
  · simp only [Op.step, nebulaDevice.Read, PipeReader.ofPipe, hrd, Function.update_same]
    have := hlt hk
    simp only [pipe.size]
    omega

/-- A consumer read with a non-empty buffer on an open pipe that is not empty
makes the pipe smaller; on an empty pipe it changes nothing. -/
theorem Op.step_tunRead_size (a : Nat) (ctlo : Option Control) (c : IPNet) (pfx : Prefix)
    (s : Run) (k : Nat) (hk : 0 < k) (hd : (s.w.pipes a).done = false) :
    ((Op.step
        ⟨ctlo, pfx, some (PipeReader.ofPipe a), some (PipeWriter.ofPipe (a + 1))⟩
        { cidr := c, routeTree := NewTree4, PipeReader := PipeReader.ofPipe (a + 1),
          PipeWriter := PipeWriter.ofPipe a } s (Op.tunRead k)).w.pipes a).size
      ≤ (s.w.pipes a).size - 1 := by
  rcases pipe.read_open _ k hd with ⟨hrd, hq⟩ | ⟨r, p', hrd, _, _, _, _, _, hlt⟩
  · simp only [Op.step, NebulaTun.Read, PipeReader.ofPipe, hrd]
    simp [pipe.size, pipe.pending, hq]
  · simp only [Op.step, NebulaTun.Read, PipeReader.ofPipe, hrd, Function.update_same]
    have := hlt hk
    simp only [pipe.size]
    omega

/-- Enough device reads with non-empty buffers receive everything the consumer wrote. -/
theorem runOps_devReads_drain (a : Nat) (ctlo : Option Control) (c : IPNet) (pfx : Prefix)
    (ks : List Nat) :
    ∀ (s : Run) (T D : List Nat) (n : Nat), (∀ k ∈ ks, 0 < k) → s.conserves a T D n →
      (s.w.pipes (a + 1)).size ≤ ks.length →
      (runOps
        ⟨ctlo, pfx, some (PipeReader.ofPipe a), some (PipeWriter.ofPipe (a + 1))⟩
        { cidr := c, routeTree := NewTree4, PipeReader := PipeReader.ofPipe (a + 1),
          PipeWriter := PipeWriter.ofPipe a } s (ks.map Op.devRead)).devGot = T := by
  induction ks with
  | nil =>
    intro s T D n _ h hsize
    obtain ⟨_, _, hT, _⟩ := h
    have hp : (s.w.pipes (a + 1)).pending = [] := by
      apply List.eq_nil_of_length_eq_zero
      simp only [pipe.size, List.length_nil] at hsize
      omega
    simpa [runOps, hp] using hT
  | cons k ks ih =>
    intro s T D n hks h hsize
    have hk : 0 < k := hks k (List.mem_cons_self _ _)
    have h1 := Op.step_conserves a ctlo c pfx s (Op.devRead k) T D n rfl h
    simp only [Op.tunPayload, Op.devPayload, List.append_nil] at h1
    have h2 := Op.step_devRead_size a ctlo c pfx s k hk h.2.1
    simp only [List.map_cons, runOps, List.foldl_cons]
    apply ih _ T D (n + 1) (fun k' hk' => hks k' (List.mem_cons_of_mem _ hk')) h1
    simp only [List.length_cons] at hsize
    omega

/-- Enough consumer reads with non-empty buffers receive everything the device wrote. -/
theorem runOps_tunReads_drain (a : Nat) (ctlo : Option Control) (c : IPNet) (pfx : Prefix)
    (ks : List Nat) :
    ∀ (s : Run) (T D : List Nat) (n : Nat), (∀ k ∈ ks, 0 < k) → s.conserves a T D n →
      (s.w.pipes a).size ≤ ks.length →
      (runOps
        ⟨ctlo, pfx, some (PipeReader.ofPipe a), some (PipeWriter.ofPipe (a + 1))⟩
        { cidr := c, routeTree := NewTree4, PipeReader := PipeReader.ofPipe (a + 1),
          PipeWriter := PipeWriter.ofPipe a } s (ks.map Op.tunRead)).tunGot = D := by
  induction ks with
  | nil =>
    intro s T D n _ h hsize
    obtain ⟨_, _, _, hD, _⟩ := h
    have hp : (s.w.pipes a).pending = [] := by
      apply List.eq_nil_of_length_eq_zero
      simp only [pipe.size, List.length_nil] at hsize
      omega
    simpa [runOps, hp] using hD
  | cons k ks ih =>
    intro s T D n hks h hsize
    have hk : 0 < k := hks k (List.mem_cons_self _ _)
    have h1 := Op.step_conserves a ctlo c pfx s (Op.tunRead k) T D n rfl h
    simp only [Op.tunPayload, Op.devPayload, List.append_nil] at h1
    have h2 := Op.step_tunRead_size a ctlo c pfx s k hk h.1
    simp only [List.map_cons, runOps, List.foldl_cons]
    apply ih _ T D (n + 1) (fun k' hk' => hks k' (List.mem_cons_of_mem _ hk')) h1
    simp only [List.length_cons] at hsize
    omega

/-- C4: on the bridge wired by the factory callback the consumer's writer and the
device's reader are the two halves of one pipe, and the device's writer and
the consumer's reader the two halves of the other. For every schedule of reads
and writes by the two owners (any chunks, any buffer sizes, any interleaving):
what the device has read, followed by what is still pending in its pipe, is
exactly the concatenation of what the consumer wrote, and what the consumer
has read, followed by what is pending in its pipe, is exactly what the device
wrote; so no side receives its own writes. Once a side then reads often
enough with non-empty buffers, it has received exactly the bytes written by
the other side. -/
theorem C4_cross_wired_round_trip (env : Env) (c : IPNet) (tun0 tun : NebulaTun)
    (w0 w : World) (dev : nebulaDevice)
    (h : NewNebulaTun.deviceFactory env c tun0 w0 = (Except.ok dev, tun, w))
    (ops : List Op) (hops : ∀ op ∈ ops, op.isTransfer = true)
    (ks : List Nat) (hks : ∀ k ∈ ks, 0 < k)
    (hlen : (ops.flatMap Op.tunPayload).length + (ops.flatMap Op.devPayload).length
      + ops.length ≤ ks.length) :
    tun.PipeWriter = some (PipeWriter.ofPipe (w0.next + 1)) ∧
    dev.PipeReader = PipeReader.ofPipe (w0.next + 1) ∧
    dev.PipeWriter = PipeWriter.ofPipe w0.next ∧
    tun.PipeReader = some (PipeReader.ofPipe w0.next) ∧
    (runOps tun dev ⟨w, [], []⟩ ops).devGot
        ++ ((runOps tun dev ⟨w, [], []⟩ ops).w.pipes (w0.next + 1)).pending
      = ops.flatMap Op.tunPayload ∧
    (runOps tun dev ⟨w, [], []⟩ ops).tunGot
        ++ ((runOps tun dev ⟨w, [], []⟩ ops).w.pipes w0.next).pending
      = ops.flatMap Op.devPayload ∧
    (runOps tun dev (runOps tun dev ⟨w, [], []⟩ ops) (ks.map Op.devRead)).devGot
      = ops.flatMap Op.tunPayload ∧
    (runOps tun dev (runOps tun dev ⟨w, [], []⟩ ops) (ks.map Op.tunRead)).tunGot
      = ops.flatMap Op.devPayload := by
  cases hp : ParsePrefix env.parseIPv6 (IPNet.String c) with
  | error e =>
    rw [deviceFactory_error env c tun0 w0 e hp] at h
    cases h
  | ok pfx =>
    rw [deviceFactory_ok env c tun0 w0 pfx hp] at h
    cases h
    have hne : w0.next + 1 ≠ w0.next := by omega
    have hinit : (Run.mk
        { pipes := Function.update (Function.update w0.pipes w0.next pipe.new)
            (w0.next + 1) pipe.new,
          next := w0.next + 2, calls := w0.calls } [] []).conserves w0.next [] [] 0 := by
      simp [Run.conserves, Function.update, hne, pipe.new, pipe.pending]
    have hinv := runOps_conserves w0.next tun0.ctl c pfx ops _ _ _ _ hops hinit
    simp only [List.nil_append, Nat.zero_add] at hinv
    obtain ⟨h1, h2, hT, hD, hnb, hna⟩ := hinv
    have hsb : ((runOps
        ⟨tun0.ctl, pfx, some (PipeReader.ofPipe w0.next), some (PipeWriter.ofPipe (w0.next + 1))⟩
        { cidr := c, routeTree := NewTree4, PipeReader := PipeReader.ofPipe (w0.next + 1),
          PipeWriter := PipeWriter.ofPipe w0.next }
        (Run.mk
          { pipes := Function.update (Function.update w0.pipes w0.next pipe.new)
              (w0.next + 1) pipe.new,
            next := w0.next + 2, calls := w0.calls } [] []) ops).w.pipes (w0.next + 1)).size
        ≤ ks.length := by
      have := congrArg List.length hT
      simp only [List.length_append] at this
      simp only [pipe.size]
      omega
    have hsa : ((runOps
        ⟨tun0.ctl, pfx, some (PipeReader.ofPipe w0.next), some (PipeWriter.ofPipe (w0.next + 1))⟩
        { cidr := c, routeTree := NewTree4, PipeReader := PipeReader.ofPipe (w0.next + 1),
          PipeWriter := PipeWriter.ofPipe w0.next }
        (Run.mk
          { pipes := Function.update (Function.update w0.pipes w0.next pipe.new)
              (w0.next + 1) pipe.new,
            next := w0.next + 2, calls := w0.calls } [] []) ops).w.pipes w0.next).size
        ≤ ks.length := by
      have := congrArg List.length hD
      simp only [List.length_append] at this
      simp only [pipe.size]
      omega
    exact ⟨rfl, rfl, rfl, rfl, hT, hD,
      runOps_devReads_drain w0.next tun0.ctl c pfx ks _ _ _ _ hks ⟨h1, h2, hT, hD, hnb, hna⟩ hsb,
      runOps_tunReads_drain w0.next tun0.ctl c pfx ks _ _ _ _ hks ⟨h1, h2, hT, hD, hnb, hna⟩ hsa⟩

/-- C4 at the bridge for 10.42.0.0/24: the consumer writes `45 00 00`, an empty
slice and `14` around a device write of `01`, with reads of 2 bytes and of 1
byte in between; ten reads of 2 bytes then leave each side with exactly what
the other wrote. -/
theorem C4_cross_wired_round_trip_witness :
    ∃ dev tun w, NewNebulaTun.deviceFactory env0 cidr0 NebulaTun.zero World.empty
        = (Except.ok dev, tun, w) ∧
      (runOps tun dev
        (runOps tun dev ⟨w, [], []⟩
          [Op.tunWrite [69, 0, 0], Op.devRead 2, Op.devWrite [1], Op.tunWrite [],
           Op.tunWrite [20], Op.tunRead 1])
        ((List.replicate 11 2).map Op.devRead)).devGot = [69, 0, 0, 20] ∧
      (runOps tun dev
        (runOps tun dev ⟨w, [], []⟩
          [Op.tunWrite [69, 0, 0], Op.devRead 2, Op.devWrite [1], Op.tunWrite [],
           Op.tunWrite [20], Op.tunRead 1])
        ((List.replicate 11 2).map Op.tunRead)).tunGot = [1] :=
  ⟨_, _, _, deviceFactory_ok env0 cidr0 NebulaTun.zero World.empty _ parse_cidr0,
    (C4_cross_wired_round_trip env0 cidr0 NebulaTun.zero _ World.empty _ _
      (deviceFactory_ok env0 cidr0 NebulaTun.zero World.empty _ parse_cidr0)
      [Op.tunWrite [69, 0, 0], Op.devRead 2, Op.devWrite [1], Op.tunWrite [],
       Op.tunWrite [20], Op.tunRead 1] (by decide) (List.replicate 11 2) (by decide)
      (by decide)).2.2.2.2.2.2⟩

/-! ## C8 -/

/-- C8: in a successful construction in which the bootstrap hands the factory an
IPv4 CIDR `c` whose mask is canonical of length `k`, the adapter's `Prefix()`
is the prefix with `c`'s address and `k` bits, the device's `Cidr()` is `c`,
and the prefix the adapter holds is the one stored by the factory: neither
storing the lifecycle handle nor `Start` changes it. -/
theorem C8_prefix_capture (env : Env) (c : IPNet) (k : Nat) (ctl : Control) (config : String)
    (w : World) (hload : env.LoadString config = none)
    (h0 : c.IP.b0 < 256) (h1 : c.IP.b1 < 256) (h2 : c.IP.b2 < 256) (h3 : c.IP.b3 < 256)
    (hmask : simpleMaskLength c.Mask = (k : Int)) :
    ∃ tun w1 dev tun' w',
      NewNebulaTun env (nebulaMain none c none ctl) config w = (Except.ok tun, w1) ∧
      NewNebulaTun.deviceFactory env c NebulaTun.zero w = (Except.ok dev, tun', w') ∧
      tun.Prefix = ⟨Addr.v4 c.IP.b0 c.IP.b1 c.IP.b2 c.IP.b3, k + 1⟩ ∧
      tun.Prefix.Bits = k ∧ tun.Prefix = tun'.Prefix ∧ dev.Cidr = c := by
  have hp := ParsePrefix_String env.parseIPv6 c k h0 h1 h2 h3 hmask
  refine ⟨_, _, _, _, _, NewNebulaTun_ok env c ctl config w _ hload hp,
    deviceFactory_ok env c NebulaTun.zero w _ hp, rfl, ?_, rfl, rfl⟩
  simp [NebulaTun.Prefix, Prefix.Bits]

/-- C8 at the CIDR 10.42.0.0/24: the adapter's prefix is 10.42.0.0/24. -/
theorem C8_prefix_capture_witness :
    ∃ tun w1 dev tun' w',
      NewNebulaTun env0 (nebulaMain none cidr0 none ctl0) "" World.empty = (Except.ok tun, w1) ∧
      NewNebulaTun.deviceFactory env0 cidr0 NebulaTun.zero World.empty
        = (Except.ok dev, tun', w') ∧
      tun.Prefix = ⟨Addr.v4 10 42 0 0, 25⟩ ∧
      tun.Prefix.Bits = 24 ∧ tun.Prefix = tun'.Prefix ∧ dev.Cidr = cidr0 :=
  C8_prefix_capture env0 cidr0 24 ctl0 "" World.empty rfl (by decide) (by decide) (by decide)
    (by decide) (by decide)

end Inbound

